import Mathlib

/-!
# surfaceofrevolutions.c : the geometry engine

A shallow embedding of `src/surfaceofrevolutions.c` and the properties of its
knot vector, basis evaluation, curve sampling and revolution sweep.

Conventions of the embedding.

* C `int` values are `Int`; none of them comes near the 32-bit range.
* `GLfloat` values are elements of a linearly ordered field `F` (exact arithmetic);
  every definition can be run at `F = ℚ`.
* A C array is a map from its `Int` index to its element.
* The sample buffer `bspline` has `MAX_BPTS` rows, and `calculateBsplineCurve` is the
  function whose stores can leave them: each of its stores into `bspline` is made under
  a test of the row, and a store outside the rows ends the run with `Except.error k`,
  `k` the row (the C program has no defined behaviour from there on). The other
  functions stay inside their arrays for every control-point count up to `MAX_CPTS`
  and every sample count that a run of `calculateBsplineCurve` leaves.
* A function that works on the file-level variables takes the engine state and
  returns the new one.
-/

namespace SurfaceOfRevolutions

/-! ## Data model -/

/-- A row `GLfloat[3]` of `cpts`, `bspline`, `bspline_copy` or of a surface cell. -/
@[ext] structure Point (F : Type) where
  x : F
  y : F
  z : F
deriving DecidableEq

/-- The C `struct Vectors`. -/
@[ext] structure Vector (F : Type) where
  x : F
  y : F
  z : F
deriving DecidableEq

/-- One cell `bspline_surface[j][i]`: the six vertices `[0]..[5]` of two triangles. -/
@[ext] structure Quad (F : Type) where
  v0 : Point F
  v1 : Point F
  v2 : Point F
  v3 : Point F
  v4 : Point F
  v5 : Point F
deriving DecidableEq

/-- The macro `#define MAX_CPTS 75`. -/
def MAX_CPTS : Int := 75

/-- The macro `#define BSPLINE_PARTITION 5`. -/
def BSPLINE_PARTITION : Int := 5

/-- The macro `#define MAX_KNOTS MAX_CPTS+5`, as used alone (in `knot[MAX_KNOTS]`). -/
def MAX_KNOTS : Int := MAX_CPTS + 5

/-- The macro `#define MAX_BPTS MAX_KNOTS*BSPLINE_PARTITION`, the row count of `bspline`,
`bspline_copy` and `bspline_surface`. The preprocessor substitutes the text of
`MAX_KNOTS`, which has no parentheses, so the expression is
`MAX_CPTS+5*BSPLINE_PARTITION`. -/
def MAX_BPTS : Int := MAX_CPTS + 5 * BSPLINE_PARTITION

/-- The value `(MAX_CPTS+5)*BSPLINE_PARTITION` that `MAX_BPTS` would have with
`MAX_KNOTS` in parentheses; `MAX_BPTS` is compared with it. -/
def MAX_BPTS_parenthesised : Int := MAX_KNOTS * BSPLINE_PARTITION

/-- The macro `#define ANGLE_PARTITION 0.125`. -/
def ANGLE_PARTITION : ℚ := 0.125

/-- The macro `#define DEGREES_OF_REVOLUTION 360`. -/
def DEGREES_OF_REVOLUTION : Int := 360

/-- The file-level variables of the engine. -/
structure State (F : Type) where
  cpts : Int → Point F
  ncpts : Int
  knot : Int → F
  bspline : Int → Point F
  num_bspline_pts : Int
  bspline_copy : Int → Point F
  bspline_surface : Int → Int → Quad F
  calculate_bspline_curve : Int
  calculate_bspline_surface : Int

/-! ## Loops -/

/-- The C loop `for (i = lo; i < hi; i++) body`, for a bound `hi` that the body does
not change. Returns the value of `i` on exit together with the final state. -/
def forLoop {σ : Type} (body : Int → σ → σ) (hi : Int) (i : Int) (s : σ) : Int × σ :=
  if i < hi then forLoop body hi (i + 1) (body i s) else (i, s)
termination_by (hi - i).toNat
decreasing_by omega

/-! ## Knot vector -/

variable {F : Type} [LinearOrderedField F]

/-- The loop body of `setKnotArray`, with `m = ncpts - 1`. -/
def setKnotBody (m : Int) (i : Int) (knot : Int → F) : Int → F :=
  if i ≤ 3 then Function.update knot i 0
  else if i ≤ m then Function.update knot i ((i - 3 : Int) : F)
  else Function.update knot i ((m - 2 : Int) : F)

/-- The function `static int setKnotArray(GLfloat* knot, int ncpts)`: the return value and the
array after the call. The loop `for (i = 0; i <= m+4; i++)` runs while `i < m+4+1`. -/
def setKnotArray (knot : Int → F) (ncpts : Int) : Int × (Int → F) :=
  let m := ncpts - 1
  if ncpts < 4 then (-1, knot)
  else (0, (forLoop (setKnotBody m) (m + 4 + 1) 0 knot).2)

/-- Closed form of the integer that a successful `setKnotArray(knot, n)` stores at
index `k` of `0..n+3`; the loop is compared with it in `setKnotArray_value`. -/
def knotValue (n k : Int) : Int :=
  if k ≤ 3 then 0 else if k ≤ n - 1 then k - 3 else n - 3

/-! ## Basis evaluation -/

/-- The function `static GLfloat deCasteljau(int i, int p, float t)` over the knot array.
The C recursion counts `p` down to its base case `p == 1`; it is called with `p = 4`.
For `p = 0` the C function never reaches the base case, and the value given here
for that case is not used by any caller. -/
def deCasteljau (knot : Int → F) : Int → Nat → F → F
  | _, 0, _ => 0
  | i, 1, t => if knot i < knot (i + 1) ∧ knot i ≤ t ∧ t < knot (i + 1) then 1 else 0
  | i, (p + 2), t =>
    let left :=
      if knot (i + ((p + 2 : Nat) : Int) - 1) - knot i ≠ 0 then
        deCasteljau knot i (p + 1) t * (t - knot i) / (knot (i + ((p + 2 : Nat) : Int) - 1) - knot i)
      else 0
    let right :=
      if knot (i + ((p + 2 : Nat) : Int)) - knot (i + 1) ≠ 0 then
        deCasteljau knot (i + 1) (p + 1) t * (knot (i + ((p + 2 : Nat) : Int)) - t)
          / (knot (i + ((p + 2 : Nat) : Int)) - knot (i + 1))
      else 0
    left + right

/-! ## Curve sampling -/

/-- The blend of four control points that the curve equation names for span `i` at the
parameter `t`: `cpts[i]*B(i,4,t) + cpts[i-1]*B(i-1,4,t) + cpts[i-2]*B(i-2,4,t) +
cpts[i-3]*B(i-3,4,t)` with `B = deCasteljau`, coordinate by coordinate. The samples that
`calculateBsplineCurve` stores are compared with it. -/
def blend (cpts : Int → Point F) (knot : Int → F) (i : Int) (t : F) : Point F :=
  ⟨(cpts i).x * deCasteljau knot i 4 t + (cpts (i - 1)).x * deCasteljau knot (i - 1) 4 t
      + (cpts (i - 2)).x * deCasteljau knot (i - 2) 4 t
      + (cpts (i - 3)).x * deCasteljau knot (i - 3) 4 t,
   (cpts i).y * deCasteljau knot i 4 t + (cpts (i - 1)).y * deCasteljau knot (i - 1) 4 t
      + (cpts (i - 2)).y * deCasteljau knot (i - 2) 4 t
      + (cpts (i - 3)).y * deCasteljau knot (i - 3) 4 t,
   (cpts i).z * deCasteljau knot i 4 t + (cpts (i - 1)).z * deCasteljau knot (i - 1) 4 t
      + (cpts (i - 2)).z * deCasteljau knot (i - 2) 4 t
      + (cpts (i - 3)).z * deCasteljau knot (i - 3) 4 t⟩

/-- The body of the inner loop of `calculateBsplineCurve` (one sample of span `i`),
on the local `t` and the state; the loop increment `num_bspline_pts++` is its last step.
The store `bspline[num_bspline_pts] = ...` needs `num_bspline_pts` to be one of the rows
`0 .. MAX_BPTS-1` of `bspline`; when it is not, the run ends with `Except.error` of
that row. -/
def sampleBody (i : Int) (interval : F) (_j : Int) (ts : F × State F) :
    Except Int (F × State F) :=
  let t := ts.1
  let s := ts.2
  let B0 := deCasteljau s.knot i 4 t
  let B1 := deCasteljau s.knot (i - 1) 4 t
  let B2 := deCasteljau s.knot (i - 2) 4 t
  let B3 := deCasteljau s.knot (i - 3) 4 t
  let p : Point F :=
    ⟨(s.cpts i).x * B0 + (s.cpts (i - 1)).x * B1 + (s.cpts (i - 2)).x * B2 + (s.cpts (i - 3)).x * B3,
     (s.cpts i).y * B0 + (s.cpts (i - 1)).y * B1 + (s.cpts (i - 2)).y * B2 + (s.cpts (i - 3)).y * B3,
     (s.cpts i).z * B0 + (s.cpts (i - 1)).z * B1 + (s.cpts (i - 2)).z * B2 + (s.cpts (i - 3)).z * B3⟩
  if 0 ≤ s.num_bspline_pts ∧ s.num_bspline_pts < MAX_BPTS then
    let s1 := { s with bspline := Function.update s.bspline s.num_bspline_pts p }
    let t1 := t + interval / ((BSPLINE_PARTITION : Int) : F)
    Except.ok (t1, { s1 with num_bspline_pts := s1.num_bspline_pts + 1 })
  else Except.error s.num_bspline_pts

/-- The body of the outer loop of `calculateBsplineCurve`: the samples of span `i`.
A run that has ended makes no further pass. -/
def spanBody (i : Int) (s : State F) : Except Int (State F) :=
  let t := s.knot i
  let interval := s.knot (i + 1) - s.knot i
  Except.map Prod.snd
    (forLoop (fun j r => Except.bind r (sampleBody i interval j)) BSPLINE_PARTITION 0
      (Except.ok (t, s))).2

/-- The function `static void calculateBsplineCurve()`. The result is `Except.ok` of the
new state, or `Except.error k` when the run stores into row `k` of `bspline` and `k` is
not one of its `MAX_BPTS` rows. -/
def calculateBsplineCurve (st : State F) : Except Int (State F) :=
  let num_knots := st.ncpts + 3
  let r := setKnotArray st.knot st.ncpts
  let st0 := { st with knot := r.2 }
  if r.1 < 0 then Except.ok st0
  else
    let st1 := { st0 with num_bspline_pts := 0 }
    Except.bind
      (forLoop (fun i r => Except.bind r (spanBody i)) (num_knots - 3) 3 (Except.ok st1)).2
      (fun st2 =>
        if 0 ≤ st2.num_bspline_pts ∧ st2.num_bspline_pts < MAX_BPTS then
          let st3 := { st2 with
            bspline :=
              Function.update st2.bspline st2.num_bspline_pts (st2.cpts (st2.ncpts - 1)) }
          Except.ok { st3 with num_bspline_pts := st3.num_bspline_pts + 1 }
        else Except.error st2.num_bspline_pts)

/-- The engine state of the concrete scenario: the four control points
`(-0.5,0,0), (-0.2,0.5,0), (0.2,0.5,0), (0.5,0,0)`, every buffer zero, both recompute
flags set. -/
def scenarioState : State ℚ where
  cpts := fun k =>
    if k = 0 then ⟨-1 / 2, 0, 0⟩ else if k = 1 then ⟨-1 / 5, 1 / 2, 0⟩
    else if k = 2 then ⟨1 / 5, 1 / 2, 0⟩ else if k = 3 then ⟨1 / 2, 0, 0⟩ else ⟨0, 0, 0⟩
  ncpts := 4
  knot := fun _ => 0
  bspline := fun _ => ⟨0, 0, 0⟩
  num_bspline_pts := 0
  bspline_copy := fun _ => ⟨0, 0, 0⟩
  bspline_surface := fun _ _ => ⟨⟨0, 0, 0⟩, ⟨0, 0, 0⟩, ⟨0, 0, 0⟩, ⟨0, 0, 0⟩, ⟨0, 0, 0⟩, ⟨0, 0, 0⟩⟩
  calculate_bspline_curve := 1
  calculate_bspline_surface := 1

/-! ## Revolution sweep -/

/-- The local `theta_incr = 1/(float) ANGLE_PARTITION`, in degrees. -/
def theta_incr : ℚ := 1 / ANGLE_PARTITION

/-- The local `int total_angles = DEGREES_OF_REVOLUTION*ANGLE_PARTITION` of the three renderers
(the product is positive, so the conversion to `int` is the floor). -/
def total_angles : Int := ⌊(DEGREES_OF_REVOLUTION : ℚ) * ANGLE_PARTITION⌋

/-- What the loops of `calculateBsplineSurface` work on: the two buffers and the local
`ip1_vertex3x/y/z`, which is read after the inner loop. The local `i_vertex3x/y/z` is
assigned in an iteration before it is read there, so it is not carried. -/
structure Sweep (F : Type) where
  bspline_copy : Int → Point F
  bspline_surface : Int → Int → Quad F
  ip1_vertex3 : Point F

/-- The body of the inner loop of `calculateBsplineSurface` for ring `j` and pair `i`;
`cosv` and `sinv` are `cos(theta_incr_rad)` and `sin(theta_incr_rad)`. -/
def ringBody (cosv sinv : F) (j : Int) (i : Int) (w : Sweep F) : Sweep F :=
  let ip1 : Point F :=
    ⟨(w.bspline_copy (i + 1)).x * cosv + (w.bspline_copy (i + 1)).z * sinv,
     (w.bspline_copy (i + 1)).y,
     -1 * (w.bspline_copy (i + 1)).x * sinv + (w.bspline_copy (i + 1)).z * cosv⟩
  let iv : Point F :=
    ⟨(w.bspline_copy i).x * cosv + (w.bspline_copy i).z * sinv,
     (w.bspline_copy i).y,
     -1 * (w.bspline_copy i).x * sinv + (w.bspline_copy i).z * cosv⟩
  let cell : Quad F :=
    ⟨w.bspline_copy i, w.bspline_copy (i + 1), ip1, ip1, iv, w.bspline_copy i⟩
  { bspline_surface :=
      Function.update w.bspline_surface j (Function.update (w.bspline_surface j) i cell)
    bspline_copy := Function.update w.bspline_copy i iv
    ip1_vertex3 := ip1 }

/-- One pass of the `while` body of `calculateBsplineSurface`: ring `j`, without the
two increments `theta = theta + theta_incr; j++`. `n` is `num_bspline_pts`. -/
def ringStep (cosv sinv : F) (n : Int) (j : Int) (w : Sweep F) : Sweep F :=
  let r := forLoop (ringBody cosv sinv j) (n - 1) 0 w
  { r.2 with bspline_copy := Function.update r.2.bspline_copy r.1 r.2.ip1_vertex3 }

/-- The loop `while (theta < DEGREES_OF_REVOLUTION)` of `calculateBsplineSurface`;
returns the ring counter `j` on exit with the buffers. -/
def sweepLoop (cosv sinv : F) (n : Int) (theta : ℚ) (j : Int) (w : Sweep F) : Int × Sweep F :=
  if theta < (DEGREES_OF_REVOLUTION : ℚ) then
    sweepLoop cosv sinv n (theta + theta_incr) (j + 1) (ringStep cosv sinv n j w)
  else (j, w)
termination_by Int.toNat ⌈(DEGREES_OF_REVOLUTION : ℚ) - theta⌉
decreasing_by
  have h8 : (DEGREES_OF_REVOLUTION : ℚ) - (theta + theta_incr)
      = (DEGREES_OF_REVOLUTION : ℚ) - theta - ((8 : ℕ) : ℚ) := by
    simp only [theta_incr, ANGLE_PARTITION]; norm_num; ring
  have hpos : 0 < ⌈(DEGREES_OF_REVOLUTION : ℚ) - theta⌉ := Int.ceil_pos.mpr (by linarith)
  rw [h8, Int.ceil_sub_nat]
  omega

/-- The buffers and the local `ip1_vertex3x/y/z = 0` on entry to the `while` loop of
`calculateBsplineSurface`, after the copy of the samples into `bspline_copy`. -/
def sweepInit (st : State F) : Sweep F :=
  ⟨(forLoop (fun i cp => Function.update cp i (st.bspline i)) st.num_bspline_pts 0
      st.bspline_copy).2,
    st.bspline_surface, ⟨0, 0, 0⟩⟩

/-- The body of `calculateBsplineSurface` up to the end of its `while` loop: the copy
of the samples into `bspline_copy`, then the sweep from `theta = 0`, `j = 0`. -/
def sweepRun (cosv sinv : F) (st : State F) : Int × Sweep F :=
  sweepLoop cosv sinv st.num_bspline_pts 0 0 (sweepInit st)

/-- The buffers after `r` passes of the `while` body of `calculateBsplineSurface` that
start at ring `j`. -/
def ringsFrom (cosv sinv : F) (n : Int) : Int → Nat → Sweep F → Sweep F
  | _, 0, w => w
  | j, (r + 1), w => ringsFrom cosv sinv n (j + 1) r (ringStep cosv sinv n j w)

/-- The one-step rotation `P' = (x*cos(step) + z*sin(step), y, -x*sin(step) + z*cos(step))`
of a point `P = (x, y, z)`, as the sweep is described. -/
def rotate1 (cosv sinv : F) (p : Point F) : Point F :=
  ⟨p.x * cosv + p.z * sinv, p.y, -p.x * sinv + p.z * cosv⟩

/-- The base polyline of ring `j`, as the sweep is described: ring 0 starts from the
curve, ring `j+1` from the rotated polyline of ring `j`. -/
def ringBase (cosv sinv : F) (curve : Int → Point F) : Nat → Int → Point F
  | 0 => curve
  | (j + 1) => fun i => rotate1 cosv sinv (ringBase cosv sinv curve j i)

/-- The six vertices `(P_i, P_{i+1}, P'_{i+1}, P'_{i+1}, P'_i, P_i)` of the quad between
the samples `i` and `i+1` of a base polyline `P` and its one-step rotation `P'`. -/
def quadOf (cosv sinv : F) (P : Int → Point F) (i : Int) : Quad F :=
  ⟨P i, P (i + 1), rotate1 cosv sinv (P (i + 1)), rotate1 cosv sinv (P (i + 1)),
    rotate1 cosv sinv (P i), P i⟩

/-- The function `static void calculateBsplineSurface()`. -/
def calculateBsplineSurface (cosv sinv : F) (st : State F) : State F :=
  let r := sweepRun cosv sinv st
  { st with bspline_copy := r.2.bspline_copy, bspline_surface := r.2.bspline_surface }

/-- The function `static void bsplineMain()`: the two recomputations. The draw calls between and
after them read the buffers and change no variable of the state. A run of
`calculateBsplineCurve` that ends outside the rows of `bspline` ends `bsplineMain`. -/
def bsplineMain (cosv sinv : F) (st : State F) : Except Int (State F) :=
  Except.bind
    (if st.calculate_bspline_curve = 1 then calculateBsplineCurve st else Except.ok st)
    (fun st1 =>
      Except.ok
        (if st1.calculate_bspline_surface = 1 then calculateBsplineSurface cosv sinv st1
          else st1))

/-- An engine state with three control points and the samples of an earlier
four-point curve: the curve of the concrete scenario has been sampled (`num_bspline_pts`
is 6), the control-point count has since become 3 (the 'l' command sets `ncpts` and
leaves `num_bspline_pts`; a file of three records numbered from 1 gives 3), and both
recompute flags are set (the 'n' command). No surface has been swept yet. -/
def staleState : State ℚ :=
  match calculateBsplineCurve scenarioState with
  | Except.ok s =>
    { s with ncpts := 3, calculate_bspline_curve := 1, calculate_bspline_surface := 1 }
  | Except.error _ => scenarioState

/-- A state with three control points on the x axis and nothing sampled yet, both
recompute flags set. -/
def threePointState : State ℚ :=
  { scenarioState with
    cpts := fun k => if k = 0 then ⟨-1 / 2, 0, 0⟩ else if k = 1 then ⟨0, 0, 0⟩
      else if k = 2 then ⟨1 / 2, 0, 0⟩ else ⟨0, 0, 0⟩
    ncpts := 3 }

/-- A state whose sample buffer holds a polyline of two points. -/
def twoSampleState : State ℚ :=
  { scenarioState with
    bspline := fun k => if k = 0 then ⟨1, 0, 0⟩ else if k = 1 then ⟨2, 1, 0⟩ else ⟨0, 0, 0⟩
    num_bspline_pts := 2 }

/-! ## Normals -/

/-- The function `static Vector crossProduct(Vector a, Vector b)`. -/
def crossProduct (a b : Vector F) : Vector F :=
  ⟨a.x * b.z - a.z * b.y, a.x * b.z - a.z * b.x, a.x * b.y - a.y * b.x⟩

/-- The standard cross product `(a.y*b.z - a.z*b.y, a.z*b.x - a.x*b.z, a.x*b.y - a.y*b.x)`,
with which `crossProduct` is compared. -/
def crossSpec (a b : Vector F) : Vector F :=
  ⟨a.y * b.z - a.z * b.y, a.z * b.x - a.x * b.z, a.x * b.y - a.y * b.x⟩

/-- The scalar product of two vectors; two vectors are orthogonal when it is zero. -/
def dot (a b : Vector F) : F :=
  a.x * b.x + a.y * b.y + a.z * b.z

/-! ## Persistence -/

/-- One record of `bspline.txt`: the four fields `index x y z` that one pass of the
loop of the 'r' command prints. A coordinate field stands for its printed text, taken
here without loss of digits. -/
structure Record (F : Type) where
  index : Int
  x : F
  y : F
  z : F
deriving DecidableEq

/-- The value `EOF` of `stdio.h`. -/
def EOF : Int := -1

/-- The case 'r' of `keyboard`, for a file that could be opened: the records printed,
in order. The command changes no variable of the engine. -/
def keyboard_r (st : State F) : List (Record F) :=
  (forLoop (fun j (out : List (Record F)) =>
      out ++ [⟨j, (st.cpts j).x, (st.cpts j).y, (st.cpts j).z⟩]) st.ncpts 0 []).2

/-- The locals and variables that the `do ... while` loop of the 'l' command works on. -/
structure Loader (F : Type) where
  file : List (Record F)
  cpts : Int → Point F
  i : Int
  tempVariable : Int
  fileSuccessfullyRead1 : Int
  fileSuccessfullyRead2 : Int
  fileSuccessfullyRead3 : Int
  fileSuccessfullyRead4 : Int

/-- The body of the `do ... while` loop of the 'l' command: four `fscanf` calls and
`i++`. On a file of whole records the four calls read one record, or all four return
`EOF` at the end of the file and store nothing. -/
def loadBody (l : Loader F) : Loader F :=
  match l.file with
  | [] =>
    { l with
      fileSuccessfullyRead1 := EOF, fileSuccessfullyRead2 := EOF
      fileSuccessfullyRead3 := EOF, fileSuccessfullyRead4 := EOF
      i := l.i + 1 }
  | r :: rest =>
    { file := rest
      tempVariable := r.index
      cpts := Function.update l.cpts l.i ⟨r.x, r.y, r.z⟩
      fileSuccessfullyRead1 := 1, fileSuccessfullyRead2 := 1
      fileSuccessfullyRead3 := 1, fileSuccessfullyRead4 := 1
      i := l.i + 1 }

/-- The loop `do ... while (i<MAX_CPTS && tempVariable==i && ...)` of the 'l' command. -/
def loadLoop (l : Loader F) : Loader F :=
  if (loadBody l).i < MAX_CPTS ∧ (loadBody l).tempVariable = (loadBody l).i ∧
      (loadBody l).fileSuccessfullyRead1 ≠ EOF ∧ (loadBody l).fileSuccessfullyRead2 ≠ EOF ∧
      (loadBody l).fileSuccessfullyRead3 ≠ EOF ∧ (loadBody l).fileSuccessfullyRead4 ≠ EOF then
    loadLoop (loadBody l)
  else loadBody l
termination_by (MAX_CPTS - l.i).toNat
decreasing_by
  have hi : (loadBody l).i = l.i + 1 := by
    unfold loadBody; split <;> rfl
  rename_i h
  have := h.1
  omega

/-- The case 'l' of `keyboard`, up to `fclose`; `none` is a file that could not be
opened. The call of `display()` that ends `keyboard` is not part of it. -/
def keyboard_l (file : Option (List (Record F))) (st : State F) : State F :=
  match file with
  | none => st
  | some f =>
    let st0 := { st with ncpts := 0 }
    let l := loadLoop
      { file := f, cpts := st0.cpts, i := 0, tempVariable := 0
        fileSuccessfullyRead1 := 0, fileSuccessfullyRead2 := 0
        fileSuccessfullyRead3 := 0, fileSuccessfullyRead4 := 0 }
    let i := if l.tempVariable ≠ l.i then l.i - 1 else l.i
    { st0 with cpts := l.cpts, ncpts := i }

/-! ## States with many control points -/

/-- An engine state with 23 control points `(k, 1, 0)`, `k = 0..22`, nothing sampled,
every buffer zero. -/
def manyPointState : State ℚ :=
  { scenarioState with
    cpts := fun k => if 0 ≤ k ∧ k ≤ 22 then ⟨(k : ℚ), 1, 0⟩ else ⟨0, 0, 0⟩
    ncpts := 23 }

/-- An engine state with `n` control points `(k, 1, 0)`, `k = 0..n-1`, nothing sampled,
every buffer zero. -/
def pointsState (n : Int) : State ℚ :=
  { scenarioState with
    cpts := fun k => if 0 ≤ k ∧ k < n then ⟨(k : ℚ), 1, 0⟩ else ⟨0, 0, 0⟩
    ncpts := n }

/-! ## Normalisation -/

/-- The quotient `a / b` of two `GLfloat` values, with the case set apart that a field
does not express: `none` stands for a division whose divisor is zero (its IEEE result
is a NaN or an infinity), `some q` for the quotient by a divisor that is not zero. -/
def divide (a b : F) : Option F :=
  if b = 0 then none else some (a / b)

/-- The function `static Vector normalizeVector(Vector a)`. The function `sqrt` of
`math.h` is a parameter. The result is `none` when one of the three divisions has the
divisor zero. -/
def normalizeVector (sqrt : F → F) (a : Vector F) : Option (Vector F) :=
  let length := sqrt (a.x * a.x + a.y * a.y + a.z * a.z)
  match divide a.x length, divide a.y length, divide a.z length with
  | some x, some y, some z => some ⟨x, y, z⟩
  | _, _, _ => none

/-! ## Sweep over the reals -/

/-- A state over any field whose sample buffer holds the polyline `(1,0,0), (2,1,0)`;
everything else is zero. -/
def twoSamples (G : Type) [LinearOrderedField G] : State G where
  cpts := fun _ => ⟨0, 0, 0⟩
  ncpts := 0
  knot := fun _ => 0
  bspline := fun k => if k = 0 then ⟨1, 0, 0⟩ else if k = 1 then ⟨2, 1, 0⟩ else ⟨0, 0, 0⟩
  num_bspline_pts := 2
  bspline_copy := fun _ => ⟨0, 0, 0⟩
  bspline_surface := fun _ _ => ⟨⟨0, 0, 0⟩, ⟨0, 0, 0⟩, ⟨0, 0, 0⟩, ⟨0, 0, 0⟩, ⟨0, 0, 0⟩, ⟨0, 0, 0⟩⟩
  calculate_bspline_curve := 0
  calculate_bspline_surface := 0

/-! ## Loop rules -/

theorem forLoop_exit {σ : Type} (body : Int → σ → σ) (hi i : Int) (s : σ) (h : hi ≤ i) :
    forLoop body hi i s = (i, s) := by
  rw [forLoop, if_neg (not_lt.mpr h)]

theorem forLoop_step {σ : Type} (body : Int → σ → σ) (hi i : Int) (s : σ) (h : i < hi) :
    forLoop body hi i s = forLoop body hi (i + 1) (body i s) := by
  rw [forLoop, if_pos h]

/-- Invariant rule for `forLoop`: an invariant that holds on entry and is kept by
every pass holds on exit, where the counter is the bound. -/
theorem forLoop_inv {σ : Type} (body : Int → σ → σ) (hi : Int) (Inv : Int → σ → Prop)
    (lo : Int) (s : σ) (hlo : lo ≤ hi) (h0 : Inv lo s)
    (hstep : ∀ i s, lo ≤ i → i < hi → Inv i s → Inv (i + 1) (body i s)) :
    (forLoop body hi lo s).1 = hi ∧ Inv hi (forLoop body hi lo s).2 := by
  obtain ⟨k, hk⟩ : ∃ k : Nat, (hi - lo).toNat = k := ⟨_, rfl⟩
  induction k generalizing lo s with
  | zero =>
    have h : lo = hi := by omega
    subst h
    rw [forLoop_exit body lo lo s le_rfl]
    exact ⟨rfl, h0⟩
  | succ k ih =>
    have h : lo < hi := by omega
    rw [forLoop_step body hi lo s h]
    exact ih (lo + 1) (body lo s) (by omega) (hstep lo s le_rfl h h0)
      (fun i s hi1 hi2 hinv => hstep i s (by omega) hi2 hinv) (by omega)

/-! ## Knot vector: what `setKnotArray` writes -/

/-- The array after a successful `setKnotArray`, entry by entry: indices `0..n+3` are
written, every other entry keeps its value. -/
theorem setKnotArray_entry (knot : Int → F) (n : Int) (hn : 4 ≤ n) (k : Int) :
    (setKnotArray knot n).2 k =
      if 0 ≤ k ∧ k ≤ n + 3 then
        (if k ≤ 3 then 0 else if k ≤ n - 1 then ((k - 3 : Int) : F) else ((n - 3 : Int) : F))
      else knot k := by
  have hloop := (forLoop_inv (setKnotBody (n - 1)) (n - 1 + 4 + 1)
    (fun i (kn : Int → F) => ∀ k : Int, kn k =
      if 0 ≤ k ∧ k < i then
        (if k ≤ 3 then 0 else if k ≤ n - 1 then ((k - 3 : Int) : F) else ((n - 3 : Int) : F))
      else knot k)
    0 knot (by omega)
    (by intro k; rw [if_neg (show ¬(0 ≤ k ∧ k < 0) by omega)])
    (by
      intro i kn h0 _ hinv k
      by_cases hki : k = i
      · subst hki
        rw [if_pos (show 0 ≤ k ∧ k < k + 1 by omega)]
        unfold setKnotBody
        split_ifs
        · simp only [Function.update_same]
        · simp only [Function.update_same]
        · simp only [Function.update_same]
          congr 1
          omega
      · have hupd : setKnotBody (n - 1) i kn k = kn k := by
          unfold setKnotBody
          split_ifs <;> exact Function.update_noteq hki _ _
        rw [hupd, hinv k]
        exact if_congr (by omega) rfl rfl)).2 k
  have hset : (setKnotArray knot n).2 = (forLoop (setKnotBody (n - 1)) (n - 1 + 4 + 1) 0 knot).2 := by
    unfold setKnotArray
    simp only [if_neg (not_lt.mpr hn)]
  rw [hset, hloop]
  exact if_congr (by omega) rfl rfl

theorem setKnotArray_fail (knot : Int → F) (n : Int) (hn : n < 4) :
    setKnotArray knot n = (-1, knot) := by
  unfold setKnotArray
  simp only [if_pos hn]

theorem setKnotArray_ok (knot : Int → F) (n : Int) (hn : 4 ≤ n) :
    (setKnotArray knot n).1 = 0 := by
  unfold setKnotArray
  simp only [if_neg (not_lt.mpr hn)]

theorem setKnotArray_value (knot : Int → F) (n : Int) (hn : 4 ≤ n) (k : Int)
    (h0 : 0 ≤ k) (h1 : k ≤ n + 3) :
    (setKnotArray knot n).2 k = ((knotValue n k : Int) : F) := by
  rw [setKnotArray_entry knot n hn k, if_pos ⟨h0, h1⟩]
  unfold knotValue
  split_ifs <;> simp

theorem setKnotArray_frame (knot : Int → F) (n : Int) (hn : 4 ≤ n) (k : Int)
    (h : k < 0 ∨ n + 3 < k) : (setKnotArray knot n).2 k = knot k := by
  rw [setKnotArray_entry knot n hn k, if_neg (by omega)]

theorem knotValue_mono (n k : Int) (hn : 4 ≤ n) : knotValue n k ≤ knotValue n (k + 1) := by
  unfold knotValue
  split_ifs <;> omega

/-! ## Claims on the knot vector -/

/-- C6: for every `n ≥ 4` the knot sequence written by `setKnotArray(knot, n)`, which
is the entries `0..n+3`, is non-decreasing; its first four values are 0, its last
four values are `n-3`, and between them `knot[k] = k-3` for `4 ≤ k ≤ n-1`, each one
more than the entry before it; for `n = 4` the sequence is `[0,0,0,0,1,1,1,1]`. -/
theorem setKnotArray_clamped_uniform (knot : Int → F) (n : Int) (hn : 4 ≤ n) :
    (∀ k, 0 ≤ k → k < n + 3 → (setKnotArray knot n).2 k ≤ (setKnotArray knot n).2 (k + 1)) ∧
    (∀ k, 0 ≤ k → k ≤ 3 → (setKnotArray knot n).2 k = 0) ∧
    (∀ k, n ≤ k → k ≤ n + 3 → (setKnotArray knot n).2 k = ((n - 3 : Int) : F)) ∧
    (∀ k, 4 ≤ k → k ≤ n - 1 → (setKnotArray knot n).2 k = ((k - 3 : Int) : F)) ∧
    (∀ k, 4 ≤ k → k ≤ n - 1 →
      (setKnotArray knot n).2 k = (setKnotArray knot n).2 (k - 1) + 1) ∧
    (∀ k, k < 0 ∨ n + 3 < k → (setKnotArray knot n).2 k = knot k) ∧
    List.map (setKnotArray knot 4).2 [0, 1, 2, 3, 4, 5, 6, 7] = [0, 0, 0, 0, 1, 1, 1, 1] := by
  refine ⟨?_, ?_, ?_, ?_, ?_, ?_, ?_⟩
  · intro k h0 h1
    rw [setKnotArray_value knot n hn k h0 (by omega),
      setKnotArray_value knot n hn (k + 1) (by omega) (by omega)]
    exact Int.cast_le.mpr (knotValue_mono n k hn)
  · intro k h0 h1
    rw [setKnotArray_value knot n hn k h0 (by omega)]
    simp [knotValue, h1]
  · intro k h0 h1
    rw [setKnotArray_value knot n hn k (by omega) h1]
    congr 1
    unfold knotValue
    split_ifs <;> omega
  · intro k h0 h1
    rw [setKnotArray_value knot n hn k (by omega) (by omega)]
    congr 1
    unfold knotValue
    split_ifs <;> omega
  · intro k h0 h1
    have hv : knotValue n k = knotValue n (k - 1) + 1 := by
      unfold knotValue
      split_ifs <;> omega
    rw [setKnotArray_value knot n hn k (by omega) (by omega),
      setKnotArray_value knot n hn (k - 1) (by omega) (by omega), hv]
    push_cast
    rfl
  · intro k h
    exact setKnotArray_frame knot n hn k h
  · simp only [List.map_cons, List.map_nil]
    rw [setKnotArray_value knot 4 le_rfl 0 (by decide) (by decide),
      setKnotArray_value knot 4 le_rfl 1 (by decide) (by decide),
      setKnotArray_value knot 4 le_rfl 2 (by decide) (by decide),
      setKnotArray_value knot 4 le_rfl 3 (by decide) (by decide),
      setKnotArray_value knot 4 le_rfl 4 (by decide) (by decide),
      setKnotArray_value knot 4 le_rfl 5 (by decide) (by decide),
      setKnotArray_value knot 4 le_rfl 6 (by decide) (by decide),
      setKnotArray_value knot 4 le_rfl 7 (by decide) (by decide)]
    simp [knotValue]

/-- Witness of C6 at `n = 5` over an all-zero array of rationals. -/
theorem setKnotArray_clamped_uniform_witness :
    (4 : Int) ≤ 5 ∧
    (setKnotArray (fun _ => (0 : ℚ)) 5).2 4 = ((4 - 3 : Int) : ℚ) ∧
    (setKnotArray (fun _ => (0 : ℚ)) 5).2 8 = ((5 - 3 : Int) : ℚ) ∧
    (setKnotArray (fun _ => (0 : ℚ)) 5).2 9 = 0 :=
  ⟨by decide,
   (setKnotArray_clamped_uniform (fun _ => (0 : ℚ)) 5 (by decide)).2.2.2.1 4 (by decide) (by decide),
   (setKnotArray_clamped_uniform (fun _ => (0 : ℚ)) 5 (by decide)).2.2.1 8 (by decide) (by decide),
   (setKnotArray_clamped_uniform (fun _ => (0 : ℚ)) 5 (by decide)).2.2.2.2.2.1 9 (by decide)⟩

/-- C7: `setKnotArray(knot, n)` returns -1 exactly when `n < 4` and 0 exactly when
`n ≥ 4`; when it fails it leaves every entry of the knot array as it was. -/
theorem setKnotArray_fails_iff (knot : Int → F) (n : Int) :
    ((setKnotArray knot n).1 = -1 ↔ n < 4) ∧
    ((setKnotArray knot n).1 = 0 ↔ 4 ≤ n) ∧
    (n < 4 → (setKnotArray knot n).2 = knot) := by
  by_cases hn : n < 4
  · rw [setKnotArray_fail knot n hn]
    refine ⟨⟨fun _ => hn, fun _ => rfl⟩, ⟨fun h => ?_, fun h => ?_⟩, fun _ => rfl⟩
    · norm_num at h
    · omega
  · have h4 : 4 ≤ n := not_lt.mp hn
    rw [setKnotArray_ok knot n h4]
    refine ⟨⟨fun h => absurd h (by decide), fun h => absurd h hn⟩, ⟨fun _ => h4, fun _ => rfl⟩,
      fun h => absurd h hn⟩

/-- Witness of C7 at `n = 3` over an all-zero array of rationals. -/
theorem setKnotArray_fails_iff_witness :
    (3 : Int) < 4 ∧ (setKnotArray (fun _ => (0 : ℚ)) 3).1 = -1 ∧
    (setKnotArray (fun _ => (0 : ℚ)) 3).2 = fun _ => (0 : ℚ) :=
  ⟨by decide, (setKnotArray_fails_iff (fun _ => (0 : ℚ)) 3).1.2 (by decide),
   (setKnotArray_fails_iff (fun _ => (0 : ℚ)) 3).2.2 (by decide)⟩

/-! ## Basis evaluation: the recursion on one span -/

theorem deCasteljau_one_eq_one (knot : Int → F) (i : Int) (t : F)
    (h1 : knot i ≤ t) (h2 : t < knot (i + 1)) : deCasteljau knot i 1 t = 1 := by
  rw [deCasteljau, if_pos ⟨lt_of_le_of_lt h1 h2, h1, h2⟩]

theorem deCasteljau_one_of_le (knot : Int → F) (i : Int) (t : F)
    (h : knot (i + 1) ≤ t) : deCasteljau knot i 1 t = 0 := by
  rw [deCasteljau, if_neg (fun hc => absurd hc.2.2 (not_lt.mpr h))]

theorem deCasteljau_one_of_lt (knot : Int → F) (i : Int) (t : F)
    (h : t < knot i) : deCasteljau knot i 1 t = 0 := by
  rw [deCasteljau, if_neg (fun hc => absurd hc.2.1 (not_le.mpr h))]

/-- The recursive case of `deCasteljau` without its two guards: a term whose
denominator is zero is zero also as a quotient of the field. -/
theorem deCasteljau_step (knot : Int → F) (i i1 ia ib : Int) (p : Nat) (t : F)
    (h1 : i1 = i + 1) (ha : ia = i + ((p + 2 : Nat) : Int) - 1)
    (hb : ib = i + ((p + 2 : Nat) : Int)) :
    deCasteljau knot i (p + 2) t =
      deCasteljau knot i (p + 1) t * (t - knot i) / (knot ia - knot i)
        + deCasteljau knot i1 (p + 1) t * (knot ib - t) / (knot ib - knot i1) := by
  subst h1 ha hb
  rw [deCasteljau]
  congr 1
  · split_ifs with h
    · rfl
    · rw [not_not.mp h, div_zero]
  · split_ifs with h
    · rfl
    · rw [not_not.mp h, div_zero]

/-- The values of the four cubic basis functions on the span `[knot (b+3), knot (b+4))`
of a knot array that is non-decreasing on `b+1 .. b+6`. -/
theorem deCasteljau_span (knot : Int → F) (b : Int) (t : F)
    (h12 : knot (b + 1) ≤ knot (b + 2))
    (h23 : knot (b + 2) ≤ knot (b + 3)) (h3 : knot (b + 3) ≤ t) (h4 : t < knot (b + 4))
    (h45 : knot (b + 4) ≤ knot (b + 5)) (h56 : knot (b + 5) ≤ knot (b + 6)) :
    deCasteljau knot b 4 t =
      (knot (b + 4) - t) / (knot (b + 4) - knot (b + 3)) * (knot (b + 4) - t)
        / (knot (b + 4) - knot (b + 2)) * (knot (b + 4) - t) / (knot (b + 4) - knot (b + 1)) ∧
    deCasteljau knot (b + 1) 4 t =
      (knot (b + 4) - t) / (knot (b + 4) - knot (b + 3)) * (knot (b + 4) - t)
        / (knot (b + 4) - knot (b + 2)) * (t - knot (b + 1)) / (knot (b + 4) - knot (b + 1))
      + ((knot (b + 4) - t) / (knot (b + 4) - knot (b + 3)) * (t - knot (b + 2))
            / (knot (b + 4) - knot (b + 2))
          + (t - knot (b + 3)) / (knot (b + 4) - knot (b + 3)) * (knot (b + 5) - t)
            / (knot (b + 5) - knot (b + 3)))
        * (knot (b + 5) - t) / (knot (b + 5) - knot (b + 2)) ∧
    deCasteljau knot (b + 2) 4 t =
      ((knot (b + 4) - t) / (knot (b + 4) - knot (b + 3)) * (t - knot (b + 2))
            / (knot (b + 4) - knot (b + 2))
          + (t - knot (b + 3)) / (knot (b + 4) - knot (b + 3)) * (knot (b + 5) - t)
            / (knot (b + 5) - knot (b + 3)))
        * (t - knot (b + 2)) / (knot (b + 5) - knot (b + 2))
      + (t - knot (b + 3)) / (knot (b + 4) - knot (b + 3)) * (t - knot (b + 3))
        / (knot (b + 5) - knot (b + 3)) * (knot (b + 6) - t) / (knot (b + 6) - knot (b + 3)) ∧
    deCasteljau knot (b + 3) 4 t =
      (t - knot (b + 3)) / (knot (b + 4) - knot (b + 3)) * (t - knot (b + 3))
        / (knot (b + 5) - knot (b + 3)) * (t - knot (b + 3)) / (knot (b + 6) - knot (b + 3)) := by
  -- order 1
  have a0 : deCasteljau knot b 1 t = 0 :=
    deCasteljau_one_of_le knot b t (by linarith)
  have a1 : deCasteljau knot (b + 1) 1 t = 0 :=
    deCasteljau_one_of_le knot (b + 1) t (by rw [show b + 1 + 1 = b + 2 by ring]; linarith)
  have a2 : deCasteljau knot (b + 2) 1 t = 0 :=
    deCasteljau_one_of_le knot (b + 2) t (by rw [show b + 2 + 1 = b + 3 by ring]; linarith)
  have a3 : deCasteljau knot (b + 3) 1 t = 1 :=
    deCasteljau_one_eq_one knot (b + 3) t h3 (by rw [show b + 3 + 1 = b + 4 by ring]; exact h4)
  have a4 : deCasteljau knot (b + 4) 1 t = 0 := deCasteljau_one_of_lt knot (b + 4) t h4
  have a5 : deCasteljau knot (b + 5) 1 t = 0 :=
    deCasteljau_one_of_lt knot (b + 5) t (by linarith)
  have a6 : deCasteljau knot (b + 6) 1 t = 0 :=
    deCasteljau_one_of_lt knot (b + 6) t (by linarith)
  -- order 2
  have b0 : deCasteljau knot b 2 t = 0 := by
    rw [deCasteljau_step knot b (b + 1) (b + 1) (b + 2) 0 t (by omega) (by omega) (by omega),
      a0, a1]; simp
  have b1 : deCasteljau knot (b + 1) 2 t = 0 := by
    rw [deCasteljau_step knot (b + 1) (b + 2) (b + 2) (b + 3) 0 t (by omega) (by omega)
      (by omega), a1, a2]; simp
  have b2 : deCasteljau knot (b + 2) 2 t
      = (knot (b + 4) - t) / (knot (b + 4) - knot (b + 3)) := by
    rw [deCasteljau_step knot (b + 2) (b + 3) (b + 3) (b + 4) 0 t (by omega) (by omega)
      (by omega), a2, a3]; simp
  have b3 : deCasteljau knot (b + 3) 2 t
      = (t - knot (b + 3)) / (knot (b + 4) - knot (b + 3)) := by
    rw [deCasteljau_step knot (b + 3) (b + 4) (b + 4) (b + 5) 0 t (by omega) (by omega)
      (by omega), a3, a4]; simp
  have b4 : deCasteljau knot (b + 4) 2 t = 0 := by
    rw [deCasteljau_step knot (b + 4) (b + 5) (b + 5) (b + 6) 0 t (by omega) (by omega)
      (by omega), a4, a5]; simp
  have b5 : deCasteljau knot (b + 5) 2 t = 0 := by
    rw [deCasteljau_step knot (b + 5) (b + 6) (b + 6) (b + 7) 0 t (by omega) (by omega)
      (by omega), a5, a6]; simp
  -- order 3
  have c0 : deCasteljau knot b 3 t = 0 := by
    rw [deCasteljau_step knot b (b + 1) (b + 2) (b + 3) 1 t (by omega) (by omega) (by omega),
      b0, b1]; simp
  have c1 : deCasteljau knot (b + 1) 3 t
      = (knot (b + 4) - t) / (knot (b + 4) - knot (b + 3)) * (knot (b + 4) - t)
        / (knot (b + 4) - knot (b + 2)) := by
    rw [deCasteljau_step knot (b + 1) (b + 2) (b + 3) (b + 4) 1 t (by omega) (by omega)
      (by omega), b1, b2]; simp
  have c2 : deCasteljau knot (b + 2) 3 t
      = (knot (b + 4) - t) / (knot (b + 4) - knot (b + 3)) * (t - knot (b + 2))
            / (knot (b + 4) - knot (b + 2))
          + (t - knot (b + 3)) / (knot (b + 4) - knot (b + 3)) * (knot (b + 5) - t)
            / (knot (b + 5) - knot (b + 3)) := by
    rw [deCasteljau_step knot (b + 2) (b + 3) (b + 4) (b + 5) 1 t (by omega) (by omega)
      (by omega), b2, b3]
  have c3 : deCasteljau knot (b + 3) 3 t
      = (t - knot (b + 3)) / (knot (b + 4) - knot (b + 3)) * (t - knot (b + 3))
        / (knot (b + 5) - knot (b + 3)) := by
    rw [deCasteljau_step knot (b + 3) (b + 4) (b + 5) (b + 6) 1 t (by omega) (by omega)
      (by omega), b3, b4]; simp
  have c4 : deCasteljau knot (b + 4) 3 t = 0 := by
    rw [deCasteljau_step knot (b + 4) (b + 5) (b + 6) (b + 7) 1 t (by omega) (by omega)
      (by omega), b4, b5]; simp
  -- order 4
  refine ⟨?_, ?_, ?_, ?_⟩
  · rw [deCasteljau_step knot b (b + 1) (b + 3) (b + 4) 2 t (by omega) (by omega) (by omega),
      c0, c1]; simp
  · rw [deCasteljau_step knot (b + 1) (b + 2) (b + 4) (b + 5) 2 t (by omega) (by omega)
      (by omega), c1, c2]
  · rw [deCasteljau_step knot (b + 2) (b + 3) (b + 5) (b + 6) 2 t (by omega) (by omega)
      (by omega), c2, c3]
  · rw [deCasteljau_step knot (b + 3) (b + 4) (b + 6) (b + 7) 2 t (by omega) (by omega)
      (by omega), c3, c4]; simp


/-- On a span the four cubic basis functions sum to one. -/
theorem deCasteljau_span_sum (knot : Int → F) (b : Int) (t : F)
    (h12 : knot (b + 1) ≤ knot (b + 2))
    (h23 : knot (b + 2) ≤ knot (b + 3)) (h3 : knot (b + 3) ≤ t) (h4 : t < knot (b + 4))
    (h45 : knot (b + 4) ≤ knot (b + 5)) (h56 : knot (b + 5) ≤ knot (b + 6)) :
    deCasteljau knot (b + 3) 4 t + deCasteljau knot (b + 2) 4 t
      + deCasteljau knot (b + 1) 4 t + deCasteljau knot b 4 t = 1 := by
  obtain ⟨e0, e1, e2, e3⟩ := deCasteljau_span knot b t h12 h23 h3 h4 h45 h56
  rw [e0, e1, e2, e3]
  have hb : ∀ x lo hi : F, hi - lo ≠ 0 →
      x * (hi - t) / (hi - lo) + x * (t - lo) / (hi - lo) = x := by
    intro x lo hi h
    field_simp
    ring
  have d43 : knot (b + 4) - knot (b + 3) ≠ 0 := ne_of_gt (by linarith)
  have t1 : (knot (b + 4) - t) / (knot (b + 4) - knot (b + 3))
      + (t - knot (b + 3)) / (knot (b + 4) - knot (b + 3)) = 1 := by
    field_simp
  have t2 := hb ((knot (b + 4) - t) / (knot (b + 4) - knot (b + 3))) (knot (b + 2))
    (knot (b + 4)) (ne_of_gt (by linarith))
  have t3 := hb ((t - knot (b + 3)) / (knot (b + 4) - knot (b + 3))) (knot (b + 3))
    (knot (b + 5)) (ne_of_gt (by linarith))
  have s1 := hb ((knot (b + 4) - t) / (knot (b + 4) - knot (b + 3)) * (knot (b + 4) - t)
        / (knot (b + 4) - knot (b + 2))) (knot (b + 1)) (knot (b + 4)) (ne_of_gt (by linarith))
  have s2 := hb ((knot (b + 4) - t) / (knot (b + 4) - knot (b + 3)) * (t - knot (b + 2))
            / (knot (b + 4) - knot (b + 2))
          + (t - knot (b + 3)) / (knot (b + 4) - knot (b + 3)) * (knot (b + 5) - t)
            / (knot (b + 5) - knot (b + 3))) (knot (b + 2)) (knot (b + 5))
    (ne_of_gt (by linarith))
  have s3 := hb ((t - knot (b + 3)) / (knot (b + 4) - knot (b + 3)) * (t - knot (b + 3))
        / (knot (b + 5) - knot (b + 3))) (knot (b + 3)) (knot (b + 6)) (ne_of_gt (by linarith))
  linear_combination s1 + s2 + s3 + t2 + t3 + t1

/-- At the left end of a span whose three knots before it coincide with it, only the
basis function of the first of the four control points is non-zero, and it is one. -/
theorem deCasteljau_span_start (knot : Int → F) (b : Int) (t : F)
    (h1 : knot (b + 1) = t) (h2 : knot (b + 2) = t) (h3 : knot (b + 3) = t)
    (h4 : t < knot (b + 4))
    (h45 : knot (b + 4) ≤ knot (b + 5)) (h56 : knot (b + 5) ≤ knot (b + 6)) :
    deCasteljau knot b 4 t = 1 ∧ deCasteljau knot (b + 1) 4 t = 0 ∧
      deCasteljau knot (b + 2) 4 t = 0 ∧ deCasteljau knot (b + 3) 4 t = 0 := by
  obtain ⟨e0, e1, e2, e3⟩ := deCasteljau_span knot b t (by rw [h1, h2]) (by rw [h2, h3])
    (le_of_eq h3) h4 h45 h56
  rw [e0, e1, e2, e3, h1, h2, h3]
  have d : knot (b + 4) - t ≠ 0 := ne_of_gt (by linarith)
  refine ⟨?_, ?_, ?_, ?_⟩
  · field_simp
  · simp
  · simp
  · simp

theorem setKnotArray_mono (knot : Int → F) (n : Int) (hn : 4 ≤ n) (k : Int)
    (h0 : 0 ≤ k) (h1 : k < n + 3) :
    (setKnotArray knot n).2 k ≤ (setKnotArray knot n).2 (k + 1) := by
  rw [setKnotArray_value knot n hn k h0 (by omega),
    setKnotArray_value knot n hn (k + 1) (by omega) (by omega)]
  exact Int.cast_le.mpr (knotValue_mono n k hn)

/-- Every span `3 ≤ i ≤ n-1` of the knot vector has width one. -/
theorem setKnotArray_span_width (knot : Int → F) (n : Int) (hn : 4 ≤ n) (i : Int)
    (h3 : 3 ≤ i) (hi : i ≤ n - 1) :
    (setKnotArray knot n).2 (i + 1) = (setKnotArray knot n).2 i + 1 := by
  have hv : knotValue n (i + 1) = knotValue n i + 1 := by
    unfold knotValue
    split_ifs <;> omega
  rw [setKnotArray_value knot n hn i (by omega) (by omega),
    setKnotArray_value knot n hn (i + 1) (by omega) (by omega), hv]
  push_cast
  rfl

/-! ## Claims on the basis functions -/

/-- C2 (partition of unity): for every `n ≥ 4`, with the knots built by
`setKnotArray(knot, n)`, every span index `3 ≤ i ≤ n-1` and every parameter `t`
strictly inside the span, `knot[i] < t < knot[i+1]`, the four active basis values
`deCasteljau(i,4,t) + deCasteljau(i-1,4,t) + deCasteljau(i-2,4,t) + deCasteljau(i-3,4,t)`
sum to 1 in exact arithmetic. -/
theorem deCasteljau_partition_of_unity (knot : Int → F) (n i : Int) (t : F)
    (hn : 4 ≤ n) (h3 : 3 ≤ i) (hi : i ≤ n - 1)
    (hlo : (setKnotArray knot n).2 i < t) (hhi : t < (setKnotArray knot n).2 (i + 1)) :
    deCasteljau (setKnotArray knot n).2 i 4 t
      + deCasteljau (setKnotArray knot n).2 (i - 1) 4 t
      + deCasteljau (setKnotArray knot n).2 (i - 2) 4 t
      + deCasteljau (setKnotArray knot n).2 (i - 3) 4 t = 1 := by
  have e1 : i - 3 + 1 = i - 2 := by ring
  have e2 : i - 3 + 2 = i - 1 := by ring
  have e3 : i - 3 + 3 = i := by ring
  have e4 : i - 3 + 4 = i + 1 := by ring
  have e5 : i - 3 + 5 = i + 1 + 1 := by ring
  have e6 : i - 3 + 6 = i + 1 + 1 + 1 := by ring
  have m1 := setKnotArray_mono knot n hn (i - 2) (by omega) (by omega)
  have m2 := setKnotArray_mono knot n hn (i - 1) (by omega) (by omega)
  have m4 := setKnotArray_mono knot n hn (i + 1) (by omega) (by omega)
  have m5 := setKnotArray_mono knot n hn (i + 1 + 1) (by omega) (by omega)
  rw [show i - 2 + 1 = i - 1 by ring] at m1
  rw [show i - 1 + 1 = i by ring] at m2
  have key := deCasteljau_span_sum (setKnotArray knot n).2 (i - 3) t
    (by rw [e1, e2]; exact m1) (by rw [e2, e3]; exact m2) (by rw [e3]; exact le_of_lt hlo)
    (by rw [e4]; exact hhi) (by rw [e4, e5]; exact m4) (by rw [e5, e6]; exact m5)
  rw [e1, e2, e3] at key
  exact key

/-- Witness of C2 at `n = 4`, span `i = 3`, parameter `t = 1/2`. -/
theorem deCasteljau_partition_of_unity_witness :
    deCasteljau (setKnotArray (fun _ => (0 : ℚ)) 4).2 3 4 (1 / 2)
      + deCasteljau (setKnotArray (fun _ => (0 : ℚ)) 4).2 (3 - 1) 4 (1 / 2)
      + deCasteljau (setKnotArray (fun _ => (0 : ℚ)) 4).2 (3 - 2) 4 (1 / 2)
      + deCasteljau (setKnotArray (fun _ => (0 : ℚ)) 4).2 (3 - 3) 4 (1 / 2) = 1 :=
  deCasteljau_partition_of_unity (fun _ => (0 : ℚ)) 4 3 (1 / 2) (by decide) (by decide)
    (by decide)
    (by rw [setKnotArray_value _ 4 (by decide) 3 (by decide) (by decide)]; norm_num [knotValue])
    (by rw [setKnotArray_value _ 4 (by decide) (3 + 1) (by decide) (by decide)]
        norm_num [knotValue])

/-! ## Curve sampling: the two loops -/

/-- The value of `MAX_BPTS` is 100; with `MAX_KNOTS` in parentheses it would be 400. -/
theorem MAX_BPTS_eq : MAX_BPTS = 100 ∧ MAX_BPTS_parenthesised = 400 := by
  constructor <;> decide

/-- One sample whose row exists: the blend is stored in row `num_bspline_pts`, `t` moves
on by `interval/5` and the sample count by one. -/
theorem sampleBody_ok (i : Int) (interval : F) (j : Int) (t : F) (s : State F)
    (h : 0 ≤ s.num_bspline_pts ∧ s.num_bspline_pts < MAX_BPTS) :
    sampleBody i interval j (t, s) =
      Except.ok (t + interval / ((BSPLINE_PARTITION : Int) : F),
        { s with
          bspline := Function.update s.bspline s.num_bspline_pts (blend s.cpts s.knot i t)
          num_bspline_pts := s.num_bspline_pts + 1 }) := by
  simp only [sampleBody, if_pos h]
  rfl

/-- One sample whose row does not exist: the run ends at that row. -/
theorem sampleBody_error (i : Int) (interval : F) (j : Int) (t : F) (s : State F)
    (h : ¬(0 ≤ s.num_bspline_pts ∧ s.num_bspline_pts < MAX_BPTS)) :
    sampleBody i interval j (t, s) = Except.error s.num_bspline_pts := by
  simp only [sampleBody, if_neg h]

/-- What one span adds when its five rows exist: five samples at
`num_bspline_pts .. num_bspline_pts+4`, taken at `knot[i] + j * (interval/5)`; the
samples before them, the knots, the control points and the surface are kept. -/
theorem spanBody_spec (i : Int) (s0 : State F) (h0 : 0 ≤ s0.num_bspline_pts)
    (hb : s0.num_bspline_pts + 5 ≤ MAX_BPTS) :
    ∃ s, spanBody i s0 = Except.ok s ∧
      s.knot = s0.knot ∧ s.cpts = s0.cpts ∧ s.ncpts = s0.ncpts ∧
      s.bspline_surface = s0.bspline_surface ∧
      s.num_bspline_pts = s0.num_bspline_pts + 5 ∧
      (∀ k, k < s0.num_bspline_pts → s.bspline k = s0.bspline k) ∧
      (∀ j : Int, 0 ≤ j → j < 5 →
        s.bspline (s0.num_bspline_pts + j) =
          blend s0.cpts s0.knot i
            (s0.knot i + (j : F) * ((s0.knot (i + 1) - s0.knot i) / 5))) := by
  have h := (forLoop_inv
    (fun j r => Except.bind r (sampleBody i (s0.knot (i + 1) - s0.knot i) j)) BSPLINE_PARTITION
    (fun j (r : Except Int (F × State F)) => ∃ t s, r = Except.ok (t, s) ∧
      s.knot = s0.knot ∧ s.cpts = s0.cpts ∧ s.ncpts = s0.ncpts ∧
      s.bspline_surface = s0.bspline_surface ∧
      s.num_bspline_pts = s0.num_bspline_pts + j ∧
      t = s0.knot i + (j : F) * ((s0.knot (i + 1) - s0.knot i) / 5) ∧
      (∀ k, k < s0.num_bspline_pts → s.bspline k = s0.bspline k) ∧
      (∀ j' : Int, 0 ≤ j' → j' < j →
        s.bspline (s0.num_bspline_pts + j') =
          blend s0.cpts s0.knot i
            (s0.knot i + (j' : F) * ((s0.knot (i + 1) - s0.knot i) / 5))))
    0 (Except.ok (s0.knot i, s0)) (by decide)
    ⟨s0.knot i, s0, rfl, rfl, rfl, rfl, rfl, by simp, by simp, fun _ _ => rfl,
      fun j' h0 h1 => absurd h1 (by omega)⟩
    (by
      rintro j r hj0 hj1 ⟨t, s, rfl, hk, hc, hnc, hsf, hnum, ht, hfr, hw⟩
      have hrow : 0 ≤ s.num_bspline_pts ∧ s.num_bspline_pts < MAX_BPTS := by
        have h5 : j < 5 := hj1
        omega
      refine ⟨t + (s0.knot (i + 1) - s0.knot i) / ((BSPLINE_PARTITION : Int) : F),
        { s with
          bspline := Function.update s.bspline s.num_bspline_pts (blend s.cpts s.knot i t)
          num_bspline_pts := s.num_bspline_pts + 1 }, ?_, hk, hc, hnc, hsf, ?_, ?_, ?_, ?_⟩
      · show sampleBody i (s0.knot (i + 1) - s0.knot i) j (t, s) = _
        exact sampleBody_ok i _ j t s hrow
      · show s.num_bspline_pts + 1 = _
        rw [hnum]; ring
      · rw [ht]; simp only [BSPLINE_PARTITION]; push_cast; ring
      · intro k hk'
        show Function.update s.bspline s.num_bspline_pts _ k = _
        rw [Function.update_noteq (by omega)]
        exact hfr k hk'
      · intro j' h0' h1'
        show Function.update s.bspline s.num_bspline_pts _ _ = _
        by_cases hjj : j' = j
        · subst hjj
          rw [hnum, Function.update_same, hk, hc, ht]
        · rw [Function.update_noteq (by omega)]
          exact hw j' h0' (by omega))).2
  obtain ⟨t, s, hr, hk, hc, hnc, hsf, hnum, -, hfr, hw⟩ := h
  refine ⟨s, ?_, hk, hc, hnc, hsf, ?_, hfr, ?_⟩
  · unfold spanBody
    simp only [hr]
    rfl
  · simpa [BSPLINE_PARTITION] using hnum
  · intro j h0' h1'
    exact hw j h0' (by simpa [BSPLINE_PARTITION] using h1')

/-- A span that starts at or past the last row ends the run at its first store. -/
theorem spanBody_overrun (i : Int) (s0 : State F) (h : MAX_BPTS ≤ s0.num_bspline_pts) :
    spanBody i s0 = Except.error s0.num_bspline_pts := by
  have hl := (forLoop_inv
    (fun j r => Except.bind r (sampleBody i (s0.knot (i + 1) - s0.knot i) j)) BSPLINE_PARTITION
    (fun j (r : Except Int (F × State F)) =>
      (j = 0 → r = Except.ok (s0.knot i, s0)) ∧
      (1 ≤ j → r = Except.error s0.num_bspline_pts))
    0 (Except.ok (s0.knot i, s0)) (by decide)
    ⟨fun _ => rfl, fun h1 => absurd h1 (by decide)⟩
    (by
      rintro j r hj0 _ ⟨ha, hb⟩
      refine ⟨fun hj => absurd hj (by omega), fun _ => ?_⟩
      by_cases hj : j = 0
      · rw [ha hj]
        show sampleBody i (s0.knot (i + 1) - s0.knot i) j (s0.knot i, s0) = _
        exact sampleBody_error i _ j _ s0 (by omega)
      · rw [hb (by omega)]
        rfl)).2
  unfold spanBody
  simp only [hl.2 (by decide)]
  rfl

/-- The curve loop of `calculateBsplineCurve`, run from `num_bspline_pts = 0` over the
spans `3 .. n-1`, when all its rows exist. -/
theorem curveLoop_spec (s0 : State F) (n : Int) (hn : 3 ≤ n) (hnum : s0.num_bspline_pts = 0)
    (hb : 5 * (n - 3) ≤ MAX_BPTS) :
    ∃ s, (forLoop (fun i r => Except.bind r (spanBody i)) (n + 3 - 3) 3 (Except.ok s0)).2
        = Except.ok s ∧
      s.knot = s0.knot ∧ s.cpts = s0.cpts ∧ s.ncpts = s0.ncpts ∧
      s.bspline_surface = s0.bspline_surface ∧
      s.num_bspline_pts = 5 * (n - 3) ∧
      (∀ i j : Int, 3 ≤ i → i ≤ n - 1 → 0 ≤ j → j < 5 →
        s.bspline (5 * (i - 3) + j) =
          blend s0.cpts s0.knot i
            (s0.knot i + (j : F) * ((s0.knot (i + 1) - s0.knot i) / 5))) := by
  have h := (forLoop_inv (fun i r => Except.bind r (spanBody i)) (n + 3 - 3)
    (fun i (r : Except Int (State F)) => ∃ s, r = Except.ok s ∧
      s.knot = s0.knot ∧ s.cpts = s0.cpts ∧ s.ncpts = s0.ncpts ∧
      s.bspline_surface = s0.bspline_surface ∧
      s.num_bspline_pts = 5 * (i - 3) ∧
      (∀ i' j : Int, 3 ≤ i' → i' < i → 0 ≤ j → j < 5 →
        s.bspline (5 * (i' - 3) + j) =
          blend s0.cpts s0.knot i'
            (s0.knot i' + (j : F) * ((s0.knot (i' + 1) - s0.knot i') / 5))))
    3 (Except.ok s0) (by omega)
    ⟨s0, rfl, rfl, rfl, rfl, rfl, by rw [hnum]; rfl, fun i' j h0 h1 => absurd h1 (by omega)⟩
    (by
      rintro i r hi0 hi1 ⟨s, rfl, hk, hc, hnc, hsf, hnm, hw⟩
      obtain ⟨s', hs', sk, sc, snc, ssf, snum, sfr, sw⟩ :=
        spanBody_spec i s (by omega) (by omega)
      refine ⟨s', hs', sk.trans hk, sc.trans hc, snc.trans hnc, ssf.trans hsf,
        by rw [snum, hnm]; ring, ?_⟩
      intro i' j h0 h1 hj0 hj1
      by_cases hii : i' = i
      · subst hii
        have := sw j hj0 hj1
        rw [hnm, hk, hc] at this
        exact this
      · rw [sfr _ (by omega)]
        exact hw i' j h0 (by omega) hj0 hj1)).2
  obtain ⟨s, hr, hk, hc, hnc, hsf, hnm, hw⟩ := h
  refine ⟨s, hr, hk, hc, hnc, hsf, by rw [hnm]; ring, ?_⟩
  intro i j h0 h1 hj0 hj1
  exact hw i j h0 (by omega) hj0 hj1

/-- The curve loop over more than 20 spans: the first store of span 23 is the store
into row `MAX_BPTS`, and the run ends there. -/
theorem curveLoop_overrun (s0 : State F) (n : Int) (hn : 24 ≤ n)
    (hnum : s0.num_bspline_pts = 0) :
    (forLoop (fun i r => Except.bind r (spanBody i)) (n + 3 - 3) 3 (Except.ok s0)).2
      = Except.error MAX_BPTS := by
  have hM := (MAX_BPTS_eq).1
  have h := (forLoop_inv (fun i r => Except.bind r (spanBody i)) (n + 3 - 3)
    (fun i (r : Except Int (State F)) =>
      (i ≤ 23 → ∃ s, r = Except.ok s ∧ s.num_bspline_pts = 5 * (i - 3)) ∧
      (23 < i → r = Except.error MAX_BPTS))
    3 (Except.ok s0) (by omega)
    ⟨fun _ => ⟨s0, rfl, by rw [hnum]; rfl⟩, fun h => absurd h (by decide)⟩
    (by
      rintro i r hi0 _ ⟨ha, hb⟩
      by_cases hi : i < 23
      · obtain ⟨s, rfl, hnm⟩ := ha (by omega)
        obtain ⟨s', hs', -, -, -, -, snum, -, -⟩ :=
          spanBody_spec i s (by omega) (by omega)
        exact ⟨fun _ => ⟨s', hs', by rw [snum, hnm]; ring⟩, fun h => absurd h (by omega)⟩
      · refine ⟨fun h => absurd h (by omega), fun _ => ?_⟩
        by_cases h23 : i = 23
        · obtain ⟨s, rfl, hnm⟩ := ha (by omega)
          show spanBody i s = _
          rw [spanBody_overrun i s (by omega), hnm, h23, hM]
          rfl
        · rw [hb (by omega)]
          rfl)).2
  exact h.2 (by omega)

/-- The state after `calculateBsplineCurve` on `n ≥ 4` control points whose last sample
index `5*(n-3)` is a row of `bspline`. -/
theorem calculateBsplineCurve_spec (st : State F) (hn : 4 ≤ st.ncpts)
    (hb : 5 * (st.ncpts - 3) < MAX_BPTS) :
    ∃ s, calculateBsplineCurve st = Except.ok s ∧
      s.knot = (setKnotArray st.knot st.ncpts).2 ∧ s.cpts = st.cpts ∧ s.ncpts = st.ncpts ∧
      s.bspline_surface = st.bspline_surface ∧
      s.num_bspline_pts = 5 * (st.ncpts - 3) + 1 ∧
      (∀ i j : Int, 3 ≤ i → i ≤ st.ncpts - 1 → 0 ≤ j → j < 5 →
        s.bspline (5 * (i - 3) + j) =
          blend st.cpts (setKnotArray st.knot st.ncpts).2 i
            ((setKnotArray st.knot st.ncpts).2 i + (j : F) *
              (((setKnotArray st.knot st.ncpts).2 (i + 1)
                - (setKnotArray st.knot st.ncpts).2 i) / 5))) ∧
      s.bspline (5 * (st.ncpts - 3)) = st.cpts (st.ncpts - 1) := by
  have hr : ¬ (setKnotArray st.knot st.ncpts).1 < 0 := by
    rw [setKnotArray_ok st.knot st.ncpts hn]; decide
  obtain ⟨s2, hloop, hk, hc, hnc, hsf, hnm, hw⟩ := curveLoop_spec
    { st with knot := (setKnotArray st.knot st.ncpts).2, num_bspline_pts := 0 } st.ncpts
    (by omega) rfl (by omega)
  simp only at hk hc hnc hsf hnm hw hloop
  have hrow : 0 ≤ s2.num_bspline_pts ∧ s2.num_bspline_pts < MAX_BPTS := by
    rw [hnm]; omega
  refine ⟨{ s2 with
      bspline := Function.update s2.bspline s2.num_bspline_pts (s2.cpts (s2.ncpts - 1))
      num_bspline_pts := s2.num_bspline_pts + 1 }, ?_, hk, hc, hnc, hsf, ?_, ?_, ?_⟩
  · unfold calculateBsplineCurve
    simp only [if_neg hr, hloop]
    show (if 0 ≤ s2.num_bspline_pts ∧ s2.num_bspline_pts < MAX_BPTS then _ else _) = _
    rw [if_pos hrow]
  · show s2.num_bspline_pts + 1 = _
    rw [hnm]
  · intro i j h0 h1 hj0 hj1
    show Function.update s2.bspline s2.num_bspline_pts _ _ = _
    rw [hnm, Function.update_noteq (by omega)]
    exact hw i j h0 h1 hj0 hj1
  · show Function.update s2.bspline s2.num_bspline_pts _ _ = _
    rw [hnm, Function.update_same, hc, hnc]

/-- With 23 control points or more the run of `calculateBsplineCurve` ends at the store
into row `MAX_BPTS` of `bspline`: for 23 points it is the store of the last sample
`cpts[n-1]`, for more it is the first store of span 23. -/
theorem calculateBsplineCurve_overrun (st : State F) (hn : 23 ≤ st.ncpts) :
    calculateBsplineCurve st = Except.error MAX_BPTS := by
  have hM := (MAX_BPTS_eq).1
  have hr : ¬ (setKnotArray st.knot st.ncpts).1 < 0 := by
    rw [setKnotArray_ok st.knot st.ncpts (by omega)]; decide
  unfold calculateBsplineCurve
  simp only [if_neg hr]
  by_cases h23 : st.ncpts = 23
  · obtain ⟨s2, hloop, -, -, -, -, hnm, -⟩ := curveLoop_spec
      { st with knot := (setKnotArray st.knot st.ncpts).2, num_bspline_pts := 0 } st.ncpts
      (by omega) rfl (by omega)
    rw [hloop]
    show (if 0 ≤ s2.num_bspline_pts ∧ s2.num_bspline_pts < MAX_BPTS then _ else _) = _
    rw [if_neg (by rw [hnm]; omega), hnm, h23, hM]
    rfl
  · have hloop := curveLoop_overrun
      { st with knot := (setKnotArray st.knot st.ncpts).2, num_bspline_pts := 0 } st.ncpts
      (by omega) rfl
    rw [hloop]
    rfl

/-- The run of `calculateBsplineCurve` on `n ≥ 4` control points returns a state exactly
when `n ≤ 22`. -/
theorem calculateBsplineCurve_ok_iff (st : State F) (hn : 4 ≤ st.ncpts) :
    (∃ s, calculateBsplineCurve st = Except.ok s) ↔ st.ncpts ≤ 22 := by
  have hM := (MAX_BPTS_eq).1
  constructor
  · rintro ⟨s, hs⟩
    by_contra hgt
    rw [calculateBsplineCurve_overrun st (by omega)] at hs
    cases hs
  · intro h22
    obtain ⟨s, hs, -⟩ := calculateBsplineCurve_spec st hn (by omega)
    exact ⟨s, hs⟩
/-- The first sample of a run that returns is the first control point: at `t = knot[3]`
the basis function of `cpts[0]` is one and the other three are zero. -/
theorem calculateBsplineCurve_first (st : State F) (hn : 4 ≤ st.ncpts) (s : State F)
    (hs : calculateBsplineCurve st = Except.ok s) : s.bspline 0 = st.cpts 0 := by
  have h22 := (calculateBsplineCurve_ok_iff st hn).1 ⟨s, hs⟩
  obtain ⟨s', hs', -, -, -, -, -, hw, -⟩ :=
    calculateBsplineCurve_spec st hn (by rw [MAX_BPTS_eq.1]; omega)
  rw [hs] at hs'
  cases hs'
  have h := hw 3 0 le_rfl (by omega) le_rfl (by decide)
  rw [show (5 : Int) * (3 - 3) + 0 = 0 by decide] at h
  rw [h]
  have k1 := setKnotArray_value st.knot st.ncpts hn 1 (by decide) (by omega)
  have k2 := setKnotArray_value st.knot st.ncpts hn 2 (by decide) (by omega)
  have k3 := setKnotArray_value st.knot st.ncpts hn 3 (by decide) (by omega)
  have k4 := setKnotArray_span_width st.knot st.ncpts hn 3 le_rfl (by omega)
  have v1 : knotValue st.ncpts 1 = 0 := by simp [knotValue]
  have v2 : knotValue st.ncpts 2 = 0 := by simp [knotValue]
  have v3 : knotValue st.ncpts 3 = 0 := by simp [knotValue]
  rw [v1, Int.cast_zero] at k1
  rw [v2, Int.cast_zero] at k2
  rw [v3, Int.cast_zero] at k3
  rw [k3, zero_add] at k4
  rw [show (3 : Int) + 1 = 4 by decide] at k4 ⊢
  have m4 := setKnotArray_mono st.knot st.ncpts hn 4 (by decide) (by omega)
  have m5 := setKnotArray_mono st.knot st.ncpts hn 5 (by decide) (by omega)
  obtain ⟨d0, d1, d2, d3⟩ := deCasteljau_span_start (setKnotArray st.knot st.ncpts).2 0 0
    k1 k2 k3 (by rw [show (0 : Int) + 4 = 4 by decide, k4]; exact one_pos) m4 m5
  rw [show (0 : Int) + 1 = 1 by decide] at d1
  rw [show (0 : Int) + 2 = 2 by decide] at d2
  rw [show (0 : Int) + 3 = 3 by decide] at d3
  rw [k3, k4]
  simp only [Int.cast_zero, zero_mul, add_zero]
  unfold blend
  rw [show (3 : Int) - 1 = 2 by decide, show (3 : Int) - 2 = 1 by decide,
    show (3 : Int) - 3 = 0 by decide, d0, d1, d2, d3]
  ext <;> simp

/-- Up to 22 control points the run returns, and the state it returns has the samples
of the curve equation: `5*(n-3)+1` of them, sample `5*(i-3)+j` the blend of span `i` at
`t = knot[i] + j*(knot[i+1]-knot[i])/5`, the first one `cpts[0]` and the last one
`cpts[n-1]`. -/
theorem calculateBsplineCurve_within_rows (st : State F) (hn : 4 ≤ st.ncpts)
    (h22 : st.ncpts ≤ 22) :
    ∃ s, calculateBsplineCurve st = Except.ok s ∧
      s.knot = (setKnotArray st.knot st.ncpts).2 ∧
      s.num_bspline_pts = 5 * (st.ncpts - 3) + 1 ∧
      (∀ i j : Int, 3 ≤ i → i ≤ st.ncpts - 1 → 0 ≤ j → j ≤ 4 →
        s.bspline (5 * (i - 3) + j) =
          blend st.cpts (setKnotArray st.knot st.ncpts).2 i
            ((setKnotArray st.knot st.ncpts).2 i + (j : F) *
              ((setKnotArray st.knot st.ncpts).2 (i + 1)
                - (setKnotArray st.knot st.ncpts).2 i) / 5)) ∧
      s.bspline 0 = st.cpts 0 ∧
      s.bspline (s.num_bspline_pts - 1) = st.cpts (st.ncpts - 1) := by
  obtain ⟨s, hs, hk, -, -, -, hnum, hw, hlast⟩ :=
    calculateBsplineCurve_spec st hn (by rw [MAX_BPTS_eq.1]; omega)
  refine ⟨s, hs, hk, hnum, ?_, calculateBsplineCurve_first st hn s hs, ?_⟩
  · intro i j h0 h1 hj0 hj1
    rw [hw i j h0 h1 hj0 (by omega), mul_div_assoc]
  · rw [hnum, show 5 * (st.ncpts - 3) + 1 - 1 = 5 * (st.ncpts - 3) by ring]
    exact hlast

/-- The concrete scenario: for the control points
`[(-0.5,0,0), (-0.2,0.5,0), (0.2,0.5,0), (0.5,0,0)]` the run returns six samples, the
first `(-0.5,0,0)` and the last `(0.5,0,0)`, and leaves the surface as it was. -/
theorem scenario_curve :
    ∃ s, calculateBsplineCurve scenarioState = Except.ok s ∧ s.num_bspline_pts = 6 ∧
      s.bspline 0 = ⟨-1 / 2, 0, 0⟩ ∧ s.bspline 5 = ⟨1 / 2, 0, 0⟩ ∧
      s.bspline_surface = scenarioState.bspline_surface := by
  obtain ⟨s, hs, -, -, -, hsf, hnum, -, hlast⟩ :=
    calculateBsplineCurve_spec scenarioState (by decide) (by decide)
  exact ⟨s, hs, hnum, calculateBsplineCurve_first scenarioState (by decide) s hs, hlast, hsf⟩

/-! ## Claims on the sampled curve -/

/-- C1, evaluation at a failing input: with 24 control points, an admissible count, the
claim has `5*(24-3)+1 = 106` samples. In `calculateBsplineCurve` the spans 3..22 fill the
rows 0..99 of `bspline`; sample number `5*(23-3)+0 = 100`, the first of span 23, is to
be stored in row 100, and `bspline` has `MAX_BPTS = 100` rows: the run ends there and
returns no sample buffer. -/
theorem calculateBsplineCurve_samples_out_of_rows :
    (4 : Int) ≤ (pointsState 24).ncpts ∧ (pointsState 24).ncpts ≤ MAX_CPTS ∧
    (5 : Int) * ((pointsState 24).ncpts - 3) + 1 = 106 ∧
    calculateBsplineCurve (pointsState 24) = Except.error 100 ∧
    (5 : Int) * (23 - 3) + 0 = 100 ∧ ¬ ((100 : Int) < MAX_BPTS) ∧
    (∀ s, calculateBsplineCurve (pointsState 24) ≠ Except.ok s) := by
  have h : calculateBsplineCurve (pointsState 24) = Except.error 100 := by
    rw [calculateBsplineCurve_overrun (pointsState 24) (by decide), MAX_BPTS_eq.1]
  refine ⟨by decide, by decide, by decide, h, by decide, by decide, ?_⟩
  intro s hs
  rw [h] at hs
  cases hs

/-- C3, evaluation at a failing input: with 75 control points, the largest admissible
count, the last sample `cpts[74]` has the index `5*(75-3) = 360`, which is not a row of
`bspline` (`MAX_BPTS = 100`); the run of `calculateBsplineCurve` ends at the store into
row 100 and no polyline with a last sample comes back. -/
theorem calculateBsplineCurve_endpoints_out_of_rows :
    (4 : Int) ≤ (pointsState 75).ncpts ∧ (pointsState 75).ncpts ≤ MAX_CPTS ∧
    (5 : Int) * ((pointsState 75).ncpts - 3) = 360 ∧ ¬ ((360 : Int) < MAX_BPTS) ∧
    calculateBsplineCurve (pointsState 75) = Except.error 100 ∧
    (∀ s, calculateBsplineCurve (pointsState 75) ≠ Except.ok s) := by
  have h : calculateBsplineCurve (pointsState 75) = Except.error 100 := by
    rw [calculateBsplineCurve_overrun (pointsState 75) (by decide), MAX_BPTS_eq.1]
  refine ⟨by decide, by decide, by decide, by decide, h, ?_⟩
  intro s hs
  rw [h] at hs
  cases hs

/-! ## Revolution sweep: the loops -/

theorem theta_incr_eq : theta_incr = 8 := by
  norm_num [theta_incr, ANGLE_PARTITION]

/-- The copy loop at the head of `calculateBsplineSurface`. -/
theorem sweepInit_copy (st : State F) (k : Int) :
    (sweepInit st).bspline_copy k =
      if 0 ≤ k ∧ k < st.num_bspline_pts then st.bspline k else st.bspline_copy k := by
  unfold sweepInit
  simp only
  by_cases hN : 0 ≤ st.num_bspline_pts
  · exact (forLoop_inv (fun i cp => Function.update cp i (st.bspline i)) st.num_bspline_pts
      (fun i (cp : Int → Point F) => ∀ k : Int,
        cp k = if 0 ≤ k ∧ k < i then st.bspline k else st.bspline_copy k)
      0 st.bspline_copy hN
      (by intro k; rw [if_neg (show ¬(0 ≤ k ∧ k < 0) by omega)])
      (by
        intro i cp h0 _ hinv k
        show Function.update cp i (st.bspline i) k = _
        by_cases hki : k = i
        · subst hki
          rw [Function.update_same, if_pos (show 0 ≤ k ∧ k < k + 1 by omega)]
        · rw [Function.update_noteq hki, hinv k]
          exact if_congr (by omega) rfl rfl)).2 k
  · rw [forLoop_exit _ _ _ _ (by omega), if_neg (by omega)]

/-- The inner loop of one ring, for at least one sample: the cells `0 .. n-2` of ring
`j` are written from the base polyline, the base points `0 .. n-2` are replaced by
their rotations, and `ip1_vertex3` holds the rotation of the last base point. -/
theorem ringLoop_spec (cosv sinv : F) (n j : Int) (w : Sweep F) (hn : 1 ≤ n) :
    (forLoop (ringBody cosv sinv j) (n - 1) 0 w).1 = n - 1 ∧
    (∀ k, (forLoop (ringBody cosv sinv j) (n - 1) 0 w).2.bspline_copy k =
      if 0 ≤ k ∧ k < n - 1 then rotate1 cosv sinv (w.bspline_copy k) else w.bspline_copy k) ∧
    (∀ j' i, (forLoop (ringBody cosv sinv j) (n - 1) 0 w).2.bspline_surface j' i =
      if j' = j ∧ 0 ≤ i ∧ i < n - 1 then quadOf cosv sinv w.bspline_copy i
      else w.bspline_surface j' i) ∧
    (2 ≤ n → (forLoop (ringBody cosv sinv j) (n - 1) 0 w).2.ip1_vertex3 =
      rotate1 cosv sinv (w.bspline_copy (n - 1))) := by
  have hrot : ∀ p : Point F,
      (⟨p.x * cosv + p.z * sinv, p.y, -1 * p.x * sinv + p.z * cosv⟩ : Point F)
        = rotate1 cosv sinv p := by
    intro p
    unfold rotate1
    rw [neg_one_mul]
  have h := forLoop_inv (ringBody cosv sinv j) (n - 1)
    (fun i (w' : Sweep F) =>
      (∀ k, w'.bspline_copy k =
        if 0 ≤ k ∧ k < i then rotate1 cosv sinv (w.bspline_copy k) else w.bspline_copy k) ∧
      (∀ j' i', w'.bspline_surface j' i' =
        if j' = j ∧ 0 ≤ i' ∧ i' < i then quadOf cosv sinv w.bspline_copy i'
        else w.bspline_surface j' i') ∧
      (1 ≤ i → w'.ip1_vertex3 = rotate1 cosv sinv (w.bspline_copy i)))
    0 w (by omega)
    ⟨fun k => by rw [if_neg (show ¬(0 ≤ k ∧ k < 0) by omega)],
     fun j' i' => by rw [if_neg (show ¬(j' = j ∧ 0 ≤ i' ∧ i' < 0) by omega)],
     fun h => absurd h (by decide)⟩
    (by
      rintro i w' h0 _ ⟨hc, hs, -⟩
      have ci : w'.bspline_copy i = w.bspline_copy i := by
        rw [hc i, if_neg (by omega)]
      have ci1 : w'.bspline_copy (i + 1) = w.bspline_copy (i + 1) := by
        rw [hc (i + 1), if_neg (by omega)]
      refine ⟨?_, ?_, ?_⟩
      · intro k
        simp only [ringBody]
        by_cases hki : k = i
        · subst hki
          rw [Function.update_same, if_pos (show 0 ≤ k ∧ k < k + 1 by omega), hrot, ci]
        · rw [Function.update_noteq hki, hc k]
          exact if_congr (by omega) rfl rfl
      · intro j' i'
        simp only [ringBody]
        by_cases hj : j' = j
        · subst hj
          rw [Function.update_same]
          by_cases hii : i' = i
          · subst hii
            rw [Function.update_same, if_pos (show j' = j' ∧ 0 ≤ i' ∧ i' < i' + 1 by omega),
              hrot, hrot, ci, ci1]
            rfl
          · rw [Function.update_noteq hii, hs j' i']
            exact if_congr (by omega) rfl rfl
        · rw [Function.update_noteq hj, hs j' i']
          exact if_congr (by omega) rfl rfl
      · intro _
        simp only [ringBody]
        rw [hrot, ci1])
  obtain ⟨h1, hc, hs, hip⟩ := h
  exact ⟨h1, hc, hs, fun h2 => hip (by omega)⟩

/-- The cells that one pass of the `while` body writes: the cells `0 .. n-2` of ring `j`. -/
theorem ringStep_surface (cosv sinv : F) (n j : Int) (w : Sweep F) (j' i : Int) :
    (ringStep cosv sinv n j w).bspline_surface j' i =
      if j' = j ∧ 0 ≤ i ∧ i < n - 1 then quadOf cosv sinv w.bspline_copy i
      else w.bspline_surface j' i := by
  unfold ringStep
  simp only
  by_cases hn : 1 ≤ n
  · exact (ringLoop_spec cosv sinv n j w hn).2.2.1 j' i
  · rw [forLoop_exit _ _ _ _ (by omega), if_neg (by omega)]

/-- The base polyline after one pass of the `while` body, for at least two samples:
all `n` points are replaced by their rotations. -/
theorem ringStep_copy (cosv sinv : F) (n j : Int) (w : Sweep F) (hn : 2 ≤ n) (k : Int) :
    (ringStep cosv sinv n j w).bspline_copy k =
      if 0 ≤ k ∧ k < n then rotate1 cosv sinv (w.bspline_copy k) else w.bspline_copy k := by
  obtain ⟨h1, hc, -, hip⟩ := ringLoop_spec cosv sinv n j w (by omega)
  unfold ringStep
  simp only
  rw [h1, hip hn]
  by_cases hk : k = n - 1
  · subst hk
    rw [Function.update_same, if_pos (by omega)]
  · rw [Function.update_noteq hk, hc k]
    exact if_congr (by omega) rfl rfl

/-- The `while` loop entered with `theta = 360 - 8 r` makes `r` passes. -/
theorem sweepLoop_eq (cosv sinv : F) (n : Int) (r : Nat) (j : Int) (w : Sweep F) :
    sweepLoop cosv sinv n (360 - 8 * (r : ℚ)) j w
      = (j + r, ringsFrom cosv sinv n j r w) := by
  induction r generalizing j w with
  | zero =>
    rw [sweepLoop, if_neg (by norm_num [DEGREES_OF_REVOLUTION])]
    simp [ringsFrom]
  | succ r ih =>
    have hlt : (360 - 8 * ((r + 1 : Nat) : ℚ)) < ((DEGREES_OF_REVOLUTION : Int) : ℚ) := by
      have : (0 : ℚ) ≤ (r : ℚ) := Nat.cast_nonneg r
      norm_num [DEGREES_OF_REVOLUTION]
      linarith
    have hth : (360 - 8 * ((r + 1 : Nat) : ℚ)) + theta_incr = 360 - 8 * (r : ℚ) := by
      rw [theta_incr_eq]; push_cast; ring
    rw [sweepLoop, if_pos hlt, hth, ih]
    simp only [ringsFrom, Nat.cast_add, Nat.cast_one]
    congr 1
    ring

theorem sweepRun_eq (cosv sinv : F) (st : State F) :
    sweepRun cosv sinv st
      = (45, ringsFrom cosv sinv st.num_bspline_pts 0 45 (sweepInit st)) := by
  have h := sweepLoop_eq cosv sinv st.num_bspline_pts 45 0 (sweepInit st)
  rw [show (360 : ℚ) - 8 * ((45 : Nat) : ℚ) = 0 by norm_num] at h
  unfold sweepRun
  rw [h]
  simp

/-- The cells outside the rings `j .. j+r-1` and the columns `0 .. n-2` keep their
content over `r` passes of the `while` body. -/
theorem ringsFrom_frame (cosv sinv : F) (n : Int) (r : Nat) (j : Int) (w : Sweep F)
    (j' i : Int) (h : ¬(j ≤ j' ∧ j' < j + r ∧ 0 ≤ i ∧ i < n - 1)) :
    (ringsFrom cosv sinv n j r w).bspline_surface j' i = w.bspline_surface j' i := by
  induction r generalizing j w with
  | zero => rfl
  | succ r ih =>
    rw [ringsFrom, ih (j + 1) _ (by push_cast at h; omega), ringStep_surface,
      if_neg (by push_cast at h; omega)]

theorem ringBase_congr (cosv sinv : F) (c1 c2 : Int → Point F) (q : Nat) (i : Int)
    (h : c1 i = c2 i) : ringBase cosv sinv c1 q i = ringBase cosv sinv c2 q i := by
  induction q with
  | zero => exact h
  | succ q ih => simp only [ringBase, ih]

theorem ringBase_shift (cosv sinv : F) (c1 c2 : Int → Point F) (q : Nat) (i : Int)
    (h : c1 i = rotate1 cosv sinv (c2 i)) :
    ringBase cosv sinv c1 q i = ringBase cosv sinv c2 (q + 1) i := by
  induction q with
  | zero => exact h
  | succ q ih => simp only [ringBase] at ih ⊢; rw [ih]

/-- The buffers after `r` passes of the `while` body from ring `j`, for a curve of at
least two samples: ring `j+q` holds the quads of the base polyline rotated `q` times,
and the base polyline itself has been rotated `r` times. -/
theorem ringsFrom_spec (cosv sinv : F) (n : Int) (hn : 2 ≤ n) (r : Nat) (j : Int)
    (w : Sweep F) :
    (∀ k, 0 ≤ k → k < n →
      (ringsFrom cosv sinv n j r w).bspline_copy k = ringBase cosv sinv w.bspline_copy r k) ∧
    (∀ (q : Nat) (i : Int), q < r → 0 ≤ i → i < n - 1 →
      (ringsFrom cosv sinv n j r w).bspline_surface (j + q) i
        = quadOf cosv sinv (ringBase cosv sinv w.bspline_copy q) i) := by
  induction r generalizing j w with
  | zero =>
    exact ⟨fun k _ _ => rfl, fun q i hq => absurd hq (Nat.not_lt_zero q)⟩
  | succ r ih =>
    obtain ⟨ihc, ihs⟩ := ih (j + 1) (ringStep cosv sinv n j w)
    have hstep : ∀ k, 0 ≤ k → k < n →
        (ringStep cosv sinv n j w).bspline_copy k = rotate1 cosv sinv (w.bspline_copy k) := by
      intro k h0 h1
      rw [ringStep_copy cosv sinv n j w hn k, if_pos ⟨h0, h1⟩]
    constructor
    · intro k h0 h1
      rw [ringsFrom, ihc k h0 h1]
      exact ringBase_shift cosv sinv _ _ r k (hstep k h0 h1)
    · intro q i hq h0 h1
      rw [ringsFrom]
      cases q with
      | zero =>
        rw [ringsFrom_frame cosv sinv n r (j + 1) _ _ _ (by push_cast; omega),
          ringStep_surface, if_pos (by push_cast; omega)]
        rfl
      | succ q =>
        have hidx : j + ((q + 1 : Nat) : Int) = j + 1 + (q : Int) := by push_cast; ring
        rw [hidx, ihs q i (by omega) h0 h1]
        unfold quadOf
        rw [ringBase_shift cosv sinv _ _ q i (hstep i h0 (by omega)),
          ringBase_shift cosv sinv _ _ q (i + 1) (hstep (i + 1) (by omega) (by omega))]

/-- The cells of `bspline_surface` after `calculateBsplineSurface`, for a curve of at
least two samples. -/
theorem calculateBsplineSurface_cell (cosv sinv : F) (st : State F)
    (hN : 2 ≤ st.num_bspline_pts) (j : Nat) (i : Int) (hj : j < 45) (h0 : 0 ≤ i)
    (h1 : i < st.num_bspline_pts - 1) :
    (calculateBsplineSurface cosv sinv st).bspline_surface j i
      = quadOf cosv sinv (ringBase cosv sinv st.bspline j) i := by
  unfold calculateBsplineSurface
  simp only [sweepRun_eq]
  have h := (ringsFrom_spec cosv sinv st.num_bspline_pts hN 45 0 (sweepInit st)).2 j i hj h0 h1
  rw [zero_add] at h
  rw [h]
  unfold quadOf
  have e0 : (sweepInit st).bspline_copy i = st.bspline i := by
    rw [sweepInit_copy, if_pos (by omega)]
  have e1 : (sweepInit st).bspline_copy (i + 1) = st.bspline (i + 1) := by
    rw [sweepInit_copy, if_pos (by omega)]
  rw [ringBase_congr cosv sinv _ _ j i e0, ringBase_congr cosv sinv _ _ j (i + 1) e1]

/-- The cells that `calculateBsplineSurface` does not write. -/
theorem calculateBsplineSurface_frame (cosv sinv : F) (st : State F) (j i : Int)
    (h : ¬(0 ≤ j ∧ j < 45 ∧ 0 ≤ i ∧ i < st.num_bspline_pts - 1)) :
    (calculateBsplineSurface cosv sinv st).bspline_surface j i = st.bspline_surface j i := by
  unfold calculateBsplineSurface
  simp only [sweepRun_eq]
  rw [ringsFrom_frame cosv sinv st.num_bspline_pts 45 0 (sweepInit st) j i
    (by push_cast; omega)]
  rfl

/-- The base polyline at the start of ring `j` is the curve rotated `j` times. -/
theorem ringsFrom_base (cosv sinv : F) (st : State F) (hN : 2 ≤ st.num_bspline_pts)
    (j : Nat) (i : Int) (h0 : 0 ≤ i) (h1 : i < st.num_bspline_pts) :
    (ringsFrom cosv sinv st.num_bspline_pts 0 j (sweepInit st)).bspline_copy i
      = ringBase cosv sinv st.bspline j i := by
  rw [(ringsFrom_spec cosv sinv st.num_bspline_pts hN j 0 (sweepInit st)).1 i h0 h1]
  exact ringBase_congr cosv sinv _ _ j i (by rw [sweepInit_copy, if_pos ⟨h0, h1⟩])

/-! ## Claims on the revolution sweep -/

/-- C4: for every curve of `N ≥ 2` samples, every ring `j` that `calculateBsplineSurface`
produces and every `i` in `0..N-2`, the six vertices stored in `bspline_surface[j][i]`
are `(P_i, P_{i+1}, P'_{i+1}, P'_{i+1}, P'_i, P_i)`, where `P` is the base polyline of
ring `j` (the content of `bspline_copy` when the ring starts) and
`P' = (x*cos(step) + z*sin(step), y, -x*sin(step) + z*cos(step))` its one-step rotation;
the base polyline of ring 0 is the sampled curve, and that of ring `j+1` is the rotated
polyline of ring `j`, for all `N` points. -/
theorem calculateBsplineSurface_quads (cosv sinv : F) (st : State F)
    (hN : 2 ≤ st.num_bspline_pts) :
    (∀ (j : Nat) (i : Int), j < 45 → 0 ≤ i → i ≤ st.num_bspline_pts - 2 →
      (calculateBsplineSurface cosv sinv st).bspline_surface j i =
        ⟨ringBase cosv sinv st.bspline j i, ringBase cosv sinv st.bspline j (i + 1),
         rotate1 cosv sinv (ringBase cosv sinv st.bspline j (i + 1)),
         rotate1 cosv sinv (ringBase cosv sinv st.bspline j (i + 1)),
         rotate1 cosv sinv (ringBase cosv sinv st.bspline j i),
         ringBase cosv sinv st.bspline j i⟩) ∧
    (∀ (j : Nat) (i : Int), j ≤ 45 → 0 ≤ i → i < st.num_bspline_pts →
      (ringsFrom cosv sinv st.num_bspline_pts 0 j (sweepInit st)).bspline_copy i
        = ringBase cosv sinv st.bspline j i) ∧
    (∀ i : Int, ringBase cosv sinv st.bspline 0 i = st.bspline i) ∧
    (∀ (j : Nat) (i : Int), ringBase cosv sinv st.bspline (j + 1) i
      = rotate1 cosv sinv (ringBase cosv sinv st.bspline j i)) ∧
    (∀ p : Point F, rotate1 cosv sinv p
      = ⟨p.x * cosv + p.z * sinv, p.y, -p.x * sinv + p.z * cosv⟩) := by
  refine ⟨?_, ?_, fun _ => rfl, fun _ _ => rfl, fun _ => rfl⟩
  · intro j i hj h0 h1
    rw [calculateBsplineSurface_cell cosv sinv st hN j i hj h0 (by omega)]
    rfl
  · intro j i _ h0 h1
    exact ringsFrom_base cosv sinv st hN j i h0 h1

/-- C5: `calculateBsplineSurface` leaves its `while` loop with the ring counter at
`360/step = 45`, where `step = 1/ANGLE_PARTITION = 8` degrees, which is the count
`total_angles = DEGREES_OF_REVOLUTION*ANGLE_PARTITION` of the renderers; for a curve of
`N ≥ 1` samples the cells it writes are the `N-1` cells `0..N-2` of each of the rings
`0..44`, which are `45*(N-1)` quads, and for a single sample it writes none. -/
theorem calculateBsplineSurface_rings (cosv sinv : F) (st : State F)
    (hN : 1 ≤ st.num_bspline_pts) :
    (sweepRun cosv sinv st).1 = 45 ∧
    theta_incr = 8 ∧ (DEGREES_OF_REVOLUTION : ℚ) / theta_incr = 45 ∧ total_angles = 45 ∧
    (∀ (j : Nat) (i : Int),
      ((j : Int), i) ∈ Finset.Ico (0 : Int) 45 ×ˢ Finset.Ico (0 : Int) (st.num_bspline_pts - 1) →
      (calculateBsplineSurface cosv sinv st).bspline_surface j i
        = quadOf cosv sinv (ringBase cosv sinv st.bspline j) i) ∧
    (∀ j i : Int,
      (j, i) ∉ Finset.Ico (0 : Int) 45 ×ˢ Finset.Ico (0 : Int) (st.num_bspline_pts - 1) →
      (calculateBsplineSurface cosv sinv st).bspline_surface j i = st.bspline_surface j i) ∧
    (((Finset.Ico (0 : Int) 45 ×ˢ Finset.Ico (0 : Int) (st.num_bspline_pts - 1)).card : Int)
      = 45 * (st.num_bspline_pts - 1)) ∧
    (st.num_bspline_pts = 1 →
      (calculateBsplineSurface cosv sinv st).bspline_surface = st.bspline_surface) := by
  refine ⟨?_, theta_incr_eq, ?_, ?_, ?_, ?_, ?_, ?_⟩
  · rw [sweepRun_eq]
  · rw [theta_incr_eq]; norm_num [DEGREES_OF_REVOLUTION]
  · unfold total_angles
    rw [show ((DEGREES_OF_REVOLUTION : Int) : ℚ) * ANGLE_PARTITION = ((45 : Int) : ℚ) by
      norm_num [DEGREES_OF_REVOLUTION, ANGLE_PARTITION]]
    exact Int.floor_intCast 45
  · intro j i hmem
    simp only [Finset.mem_product, Finset.mem_Ico] at hmem
    exact calculateBsplineSurface_cell cosv sinv st (by omega) j i (by omega) (by omega)
      (by omega)
  · intro j i hmem
    simp only [Finset.mem_product, Finset.mem_Ico] at hmem
    exact calculateBsplineSurface_frame cosv sinv st j i (by omega)
  · have h45 : ((45 : Int) - 0).toNat = 45 := by decide
    rw [Finset.card_product, Int.card_Ico, Int.card_Ico, h45, Nat.cast_mul,
      Int.toNat_of_nonneg (by omega)]
    push_cast
    ring
  · intro h1
    funext j i
    exact calculateBsplineSurface_frame cosv sinv st j i (by omega)


/-- Witness of C4 on a polyline of two points, with `cos = 4/5` and `sin = 3/5`: the
cell of ring 0 between the two samples. -/
theorem calculateBsplineSurface_quads_witness :
    (2 : Int) ≤ twoSampleState.num_bspline_pts ∧
    (calculateBsplineSurface (4 / 5) (3 / 5) twoSampleState).bspline_surface 0 0 =
      ⟨⟨1, 0, 0⟩, ⟨2, 1, 0⟩, rotate1 (4 / 5) (3 / 5) ⟨2, 1, 0⟩, rotate1 (4 / 5) (3 / 5) ⟨2, 1, 0⟩,
       rotate1 (4 / 5) (3 / 5) ⟨1, 0, 0⟩, ⟨1, 0, 0⟩⟩ :=
  ⟨by decide,
   (calculateBsplineSurface_quads (4 / 5) (3 / 5) twoSampleState (by decide)).1 0 0
     (by decide) (by decide) (by decide)⟩

/-- Witness of C5 on a polyline of two points: 45 rings of one quad each. -/
theorem calculateBsplineSurface_rings_witness :
    (1 : Int) ≤ twoSampleState.num_bspline_pts ∧
    (sweepRun (4 / 5 : ℚ) (3 / 5) twoSampleState).1 = 45 ∧
    (((Finset.Ico (0 : Int) 45 ×ˢ
        Finset.Ico (0 : Int) (twoSampleState.num_bspline_pts - 1)).card : Int)
      = 45 * (twoSampleState.num_bspline_pts - 1)) :=
  ⟨by decide,
   (calculateBsplineSurface_rings (4 / 5 : ℚ) (3 / 5) twoSampleState (by decide)).1,
   (calculateBsplineSurface_rings (4 / 5 : ℚ) (3 / 5) twoSampleState
     (by decide)).2.2.2.2.2.2.1⟩

/-! ## Recompute pass with fewer than four control points -/

/-- With fewer than four control points `calculateBsplineCurve` returns and changes
nothing. -/
theorem calculateBsplineCurve_insufficient (st : State F) (hn : st.ncpts < 4) :
    calculateBsplineCurve st = Except.ok st := by
  unfold calculateBsplineCurve
  simp only [setKnotArray_fail st.knot st.ncpts hn]
  rw [if_pos (by decide)]

/-- The state `staleState`, field by field: the six samples of the scenario, three
control points, both flags set, the surface still all zero. -/
theorem staleState_fields :
    staleState.ncpts = 3 ∧ staleState.calculate_bspline_curve = 1 ∧
    staleState.calculate_bspline_surface = 1 ∧ staleState.num_bspline_pts = 6 ∧
    staleState.bspline 0 = ⟨-1 / 2, 0, 0⟩ ∧
    staleState.bspline_surface = scenarioState.bspline_surface := by
  obtain ⟨s, hs, hnum, hfirst, -, hsf⟩ := scenario_curve
  have hst : staleState =
      { s with ncpts := 3, calculate_bspline_curve := 1, calculate_bspline_surface := 1 } := by
    unfold staleState
    rw [hs]
  rw [hst]
  exact ⟨rfl, rfl, rfl, hnum, hfirst, hsf⟩

/-- C8, as the code has it: for every engine state whose control-point count is below
4, a recompute pass of `bsplineMain` (both flags set) skips curve generation entirely,
`calculateBsplineCurve` returns and changes nothing, so the sample buffer,
`num_bspline_pts` and the knots are as before; `calculateBsplineSurface` runs all the
same on the samples that `num_bspline_pts` counts, the pass returns its state, and it
writes no quad of `bspline_surface` when that count is at most 1. -/
theorem bsplineMain_insufficient (cosv sinv : F) (st : State F) (hn : st.ncpts < 4)
    (hc : st.calculate_bspline_curve = 1) (hs : st.calculate_bspline_surface = 1) :
    calculateBsplineCurve st = Except.ok st ∧
    bsplineMain cosv sinv st = Except.ok (calculateBsplineSurface cosv sinv st) ∧
    (calculateBsplineSurface cosv sinv st).bspline = st.bspline ∧
    (calculateBsplineSurface cosv sinv st).num_bspline_pts = st.num_bspline_pts ∧
    (calculateBsplineSurface cosv sinv st).knot = st.knot ∧
    (st.num_bspline_pts ≤ 1 →
      (calculateBsplineSurface cosv sinv st).bspline_surface = st.bspline_surface) := by
  have hcurve := calculateBsplineCurve_insufficient st hn
  have hmain : bsplineMain cosv sinv st
      = Except.ok (calculateBsplineSurface cosv sinv st) := by
    unfold bsplineMain
    rw [if_pos hc, hcurve]
    show Except.ok (if st.calculate_bspline_surface = 1 then _ else _) = _
    rw [if_pos hs]
  refine ⟨hcurve, hmain, rfl, rfl, rfl, ?_⟩
  intro h1
  funext j i
  exact calculateBsplineSurface_frame cosv sinv st j i (by omega)

/-- Witness of the amended C8 on three control points with nothing sampled. -/
theorem bsplineMain_insufficient_witness :
    threePointState.ncpts < 4 ∧ threePointState.calculate_bspline_curve = 1 ∧
    threePointState.calculate_bspline_surface = 1 ∧ threePointState.num_bspline_pts ≤ 1 ∧
    bsplineMain (4 / 5 : ℚ) (3 / 5) threePointState
      = Except.ok (calculateBsplineSurface (4 / 5) (3 / 5) threePointState) ∧
    (calculateBsplineSurface (4 / 5 : ℚ) (3 / 5) threePointState).num_bspline_pts
      = threePointState.num_bspline_pts ∧
    (calculateBsplineSurface (4 / 5 : ℚ) (3 / 5) threePointState).bspline_surface
      = threePointState.bspline_surface :=
  ⟨by decide, by decide, by decide, by decide,
   (bsplineMain_insufficient (4 / 5 : ℚ) (3 / 5) threePointState (by decide) (by decide)
     (by decide)).2.1,
   (bsplineMain_insufficient (4 / 5 : ℚ) (3 / 5) threePointState (by decide) (by decide)
     (by decide)).2.2.2.1,
   (bsplineMain_insufficient (4 / 5 : ℚ) (3 / 5) threePointState (by decide) (by decide)
     (by decide)).2.2.2.2.2 (by decide)⟩

/-- Counterexample to C8 as stated: in `staleState` the control-point count is 3 and
both flags are set, yet the recompute pass returns with the cell `bspline_surface[0][0]`
written: its first vertex becomes the first stale sample `(-0.5, 0, 0)`, where it was
`(0, 0, 0)`. (The values `0.99` and `0.14` stand for the cosine and the sine of the
step; the first vertex of a cell does not depend on them.) -/
theorem bsplineMain_sweeps_stale_samples :
    staleState.ncpts < 4 ∧ staleState.calculate_bspline_curve = 1 ∧
    staleState.calculate_bspline_surface = 1 ∧
    (staleState.bspline_surface 0 0).v0 = ⟨0, 0, 0⟩ ∧
    bsplineMain (99 / 100 : ℚ) (14 / 100) staleState
      = Except.ok (calculateBsplineSurface (99 / 100) (14 / 100) staleState) ∧
    ((calculateBsplineSurface (99 / 100 : ℚ) (14 / 100) staleState).bspline_surface 0 0).v0
      = ⟨-1 / 2, 0, 0⟩ ∧
    (calculateBsplineSurface (99 / 100 : ℚ) (14 / 100) staleState).bspline_surface
      ≠ staleState.bspline_surface := by
  obtain ⟨hn3, hfc, hfs, hnum, hfirst, hsf⟩ := staleState_fields
  have hold : (staleState.bspline_surface 0 0).v0 = ⟨0, 0, 0⟩ := by
    rw [hsf]
    rfl
  have hmain : bsplineMain (99 / 100 : ℚ) (14 / 100) staleState
      = Except.ok (calculateBsplineSurface (99 / 100) (14 / 100) staleState) := by
    unfold bsplineMain
    rw [if_pos hfc, calculateBsplineCurve_insufficient staleState (by rw [hn3]; decide)]
    show Except.ok (if staleState.calculate_bspline_surface = 1 then _ else _) = _
    rw [if_pos hfs]
  have hnew :
      ((calculateBsplineSurface (99 / 100 : ℚ) (14 / 100) staleState).bspline_surface 0 0).v0
        = ⟨-1 / 2, 0, 0⟩ := by
    have hcell := calculateBsplineSurface_cell (99 / 100 : ℚ) (14 / 100) staleState
      (by rw [hnum]; decide) 0 0 (by decide) le_rfl (by rw [hnum]; decide)
    rw [Nat.cast_zero] at hcell
    rw [hcell]
    exact hfirst
  refine ⟨by rw [hn3]; decide, hfc, hfs, hold, hmain, hnew, ?_⟩
  intro heq
  rw [heq, hold] at hnew
  have hx := congrArg Point.x hnew
  norm_num at hx

/-! ## Claim on the normals -/

/-- Of the three components only the third is the one of the standard cross product. -/
theorem crossProduct_z (a b : Vector F) : (crossProduct a b).z = (crossSpec a b).z := rfl

/-- C9, evaluation at a failing input: for `a = (1,0,0)` and `b = (0,0,1)` the function
`crossProduct` returns `(1,1,0)`, where the standard cross product is `(0,-1,0)`, and
the result is not orthogonal to `a`. -/
theorem crossProduct_failing_input :
    crossProduct (⟨1, 0, 0⟩ : Vector ℚ) ⟨0, 0, 1⟩ = ⟨1, 1, 0⟩ ∧
    crossSpec (⟨1, 0, 0⟩ : Vector ℚ) ⟨0, 0, 1⟩ = ⟨0, -1, 0⟩ ∧
    crossProduct (⟨1, 0, 0⟩ : Vector ℚ) ⟨0, 0, 1⟩ ≠ crossSpec ⟨1, 0, 0⟩ ⟨0, 0, 1⟩ ∧
    dot (⟨1, 0, 0⟩ : Vector ℚ) (crossProduct ⟨1, 0, 0⟩ ⟨0, 0, 1⟩) = 1 := by
  refine ⟨?_, ?_, ?_, ?_⟩
  · norm_num [crossProduct]
  · norm_num [crossSpec]
  · intro h
    have hx := congrArg Vector.x h
    norm_num [crossProduct, crossSpec] at hx
  · norm_num [dot, crossProduct]

/-! ## Claim on the persistence round trip -/

/-- The first record that the 'r' command prints has index 0. -/
theorem keyboard_r_head {G : Type} (st : State G) (h : 1 ≤ st.ncpts) :
    ∃ rest, keyboard_r st
      = (⟨0, (st.cpts 0).x, (st.cpts 0).y, (st.cpts 0).z⟩ : Record G) :: rest := by
  unfold keyboard_r
  rw [forLoop_step _ _ 0 [] (by omega)]
  exact (forLoop_inv _ st.ncpts
    (fun _ (out : List (Record G)) => ∃ rest, out
      = (⟨0, (st.cpts 0).x, (st.cpts 0).y, (st.cpts 0).z⟩ : Record G) :: rest)
    (0 + 1) _ (by omega) ⟨[], rfl⟩
    (by
      rintro i out _ _ ⟨rest, hrest⟩
      exact ⟨rest ++ [⟨i, (st.cpts i).x, (st.cpts i).y, (st.cpts i).z⟩], by
        show out ++ _ = _
        rw [hrest]; rfl⟩)).2

/-- The loader leaves its loop after the first record when that record has index 0:
it compares the index with `i` after `i++`. It then takes `i` back to 0. -/
theorem keyboard_l_index_zero {G : Type} (r : Record G) (rest : List (Record G))
    (st : State G) (h : r.index = 0) :
    (keyboard_l (some (r :: rest)) st).ncpts = 0 ∧
    (keyboard_l (some (r :: rest)) st).cpts = Function.update st.cpts 0 ⟨r.x, r.y, r.z⟩ := by
  unfold keyboard_l
  simp only
  rw [loadLoop]
  simp [loadBody, h]

/-- Whatever non-empty set of control points the 'r' command records, the 'l' command
reads the file back as 0 control points. -/
theorem keyboard_l_after_r {G : Type} (st st2 : State G) (h : 1 ≤ st.ncpts) :
    (keyboard_l (some (keyboard_r st)) st2).ncpts = 0 := by
  obtain ⟨rest, hrest⟩ := keyboard_r_head st h
  rw [hrest]
  exact (keyboard_l_index_zero _ rest st2 rfl).1

/-- C10, evaluation at a failing input: the four control points of the concrete
scenario are recorded by the 'r' command as four records with the indices 0, 1, 2, 3, and
the 'l' command reads this file back as 0 control points. -/
theorem keyboard_l_after_r_failing_input :
    scenarioState.ncpts = 4 ∧
    (keyboard_r scenarioState).map Record.index = [0, 1, 2, 3] ∧
    (keyboard_l (some (keyboard_r scenarioState)) scenarioState).ncpts = 0 := by
  refine ⟨rfl, ?_, ?_⟩
  · unfold keyboard_r
    rw [forLoop_step _ _ 0 _ (by decide), forLoop_step _ _ (0 + 1) _ (by decide),
      forLoop_step _ _ (0 + 1 + 1) _ (by decide), forLoop_step _ _ (0 + 1 + 1 + 1) _ (by decide),
      forLoop_exit _ _ (0 + 1 + 1 + 1 + 1) _ (by decide)]
    rfl
  · obtain ⟨rest, hrest⟩ := keyboard_r_head scenarioState (by decide)
    rw [hrest]
    exact (keyboard_l_index_zero _ rest scenarioState rfl).1


/-! ## Claim on the number of knots -/

/-- C12, as the code has it: for every `n ≥ 4`, `setKnotArray(knot, n)` writes the `n+4`
knot values with the indices `0..n+3`, of which `knot[n], ..., knot[n+3]` are all equal
to `n-3`; the entry `knot[n+4]`, like every entry outside `0..n+3`, is not written and
keeps the value it had. -/
theorem setKnotArray_count (knot : Int → F) (n : Int) (hn : 4 ≤ n) :
    (∀ k, 0 ≤ k → k ≤ n + 3 → (setKnotArray knot n).2 k = ((knotValue n k : Int) : F)) ∧
    (∀ k, n ≤ k → k ≤ n + 3 → (setKnotArray knot n).2 k = ((n - 3 : Int) : F)) ∧
    (∀ k, k < 0 ∨ n + 3 < k → (setKnotArray knot n).2 k = knot k) ∧
    (setKnotArray knot n).2 (n + 4) = knot (n + 4) ∧
    ((Finset.Icc (0 : Int) (n + 3)).card : Int) = n + 4 := by
  refine ⟨fun k h0 h1 => setKnotArray_value knot n hn k h0 h1, ?_,
    fun k h => setKnotArray_frame knot n hn k h,
    setKnotArray_frame knot n hn (n + 4) (by omega), ?_⟩
  · intro k h0 h1
    rw [setKnotArray_value knot n hn k (by omega) h1]
    congr 1
    unfold knotValue
    split_ifs <;> omega
  · rw [Int.card_Icc, Int.toNat_of_nonneg (by omega)]
    ring

/-- Witness of the amended C12 at `n = 4` over an all-zero array of rationals. -/
theorem setKnotArray_count_witness :
    (4 : Int) ≤ 4 ∧
    (setKnotArray (fun _ => (0 : ℚ)) 4).2 7 = ((4 - 3 : Int) : ℚ) ∧
    (setKnotArray (fun _ => (0 : ℚ)) 4).2 (4 + 4) = 0 :=
  ⟨by decide,
   (setKnotArray_count (fun _ => (0 : ℚ)) 4 (by decide)).2.1 7 (by decide) (by decide),
   (setKnotArray_count (fun _ => (0 : ℚ)) 4 (by decide)).2.2.2.1⟩

/-- Counterexample to C12 as stated: on the zero-initialised knot array and `n = 4` the
entry `knot[n+4] = knot[8]` is still 0 after the call, not `n-3 = 1`. -/
theorem setKnotArray_index_n_plus_4_unwritten :
    (setKnotArray (fun _ => (0 : ℚ)) 4).2 (4 + 4) = 0 ∧
    (setKnotArray (fun _ => (0 : ℚ)) 4).2 (4 + 4) ≠ ((4 - 3 : Int) : ℚ) := by
  have h : (setKnotArray (fun _ => (0 : ℚ)) 4).2 (4 + 4) = 0 :=
    setKnotArray_frame (fun _ => (0 : ℚ)) 4 (by decide) (4 + 4) (by decide)
  refine ⟨h, ?_⟩
  rw [h]
  norm_num

/-! ## Claim on the capacity of the sample buffer -/

/-- The last sample index `5*(n-3)` is below `MAX_BPTS` exactly up to 22 control points;
it is below the parenthesised value for every admissible count. -/
theorem last_sample_index_bound (n : Int) :
    (5 * (n - 3) < MAX_BPTS ↔ n ≤ 22) ∧ (n ≤ MAX_CPTS → 5 * (n - 3) < MAX_BPTS_parenthesised) := by
  rw [MAX_BPTS_eq.1, MAX_BPTS_eq.2]
  unfold MAX_CPTS
  constructor
  · omega
  · omega

/-- C14, evaluation at a failing input: with 23 control points, an admissible count, the
last sample `cpts[22]` has the index `5*(23-3) = 100`. The loop of `calculateBsplineCurve`
returns with 100 samples in the rows 0..99 of `bspline`; the store that follows, of
`cpts[22] = (22,1,0)` into row 100, is not below `MAX_BPTS = 75+5*5 = 100`, and the run
ends there. -/
theorem calculateBsplineCurve_exceeds_MAX_BPTS :
    (4 : Int) ≤ manyPointState.ncpts ∧ manyPointState.ncpts ≤ MAX_CPTS ∧
    MAX_BPTS = 100 ∧
    (5 : Int) * (manyPointState.ncpts - 3) = 100 ∧
    (∃ s2,
      (forLoop (fun i r => Except.bind r (spanBody i)) (manyPointState.ncpts + 3 - 3) 3
        (Except.ok { manyPointState with
          knot := (setKnotArray manyPointState.knot manyPointState.ncpts).2
          num_bspline_pts := 0 })).2 = Except.ok s2 ∧
      s2.num_bspline_pts = 100 ∧ s2.cpts (s2.ncpts - 1) = ⟨22, 1, 0⟩) ∧
    calculateBsplineCurve manyPointState = Except.error 100 ∧
    ¬ ((100 : Int) < MAX_BPTS) := by
  refine ⟨by decide, by decide, MAX_BPTS_eq.1, by decide, ?_, ?_, by decide⟩
  · obtain ⟨s2, hloop, -, hc, hnc, -, hnm, -⟩ := curveLoop_spec
      { manyPointState with
        knot := (setKnotArray manyPointState.knot manyPointState.ncpts).2
        num_bspline_pts := 0 } manyPointState.ncpts (by decide) rfl (by decide)
    refine ⟨s2, hloop, hnm, ?_⟩
    rw [hc, hnc]
    simp [manyPointState]
  · rw [calculateBsplineCurve_overrun manyPointState (by decide), MAX_BPTS_eq.1]

/-! ## Claim on the normalisation -/

/-- C11, as the code has it: `normalizeVector` has no guard. It divides the three
components by `length = sqrt(a.x*a.x + a.y*a.y + a.z*a.z)`: when `length` is not zero the
result is `(a.x/length, a.y/length, a.z/length)`, and when `length` is zero the divisions
are made with the divisor zero and no default vector takes the place of the result. -/
theorem normalizeVector_unguarded (sqrt : F → F) (a : Vector F) :
    (sqrt (a.x * a.x + a.y * a.y + a.z * a.z) ≠ 0 →
      normalizeVector sqrt a =
        some ⟨a.x / sqrt (a.x * a.x + a.y * a.y + a.z * a.z),
              a.y / sqrt (a.x * a.x + a.y * a.y + a.z * a.z),
              a.z / sqrt (a.x * a.x + a.y * a.y + a.z * a.z)⟩) ∧
    (sqrt (a.x * a.x + a.y * a.y + a.z * a.z) = 0 →
      divide a.x (sqrt (a.x * a.x + a.y * a.y + a.z * a.z)) = none ∧
      normalizeVector sqrt a = none) := by
  constructor
  · intro h
    simp only [normalizeVector, divide, if_neg h]
  · intro h
    simp only [normalizeVector, divide, h, if_pos]
    exact ⟨trivial, trivial⟩

/-- Witness of the amended C11 with the rational square root: `(3,4,0)` has length 5 and
is normalised to `(3/5, 4/5, 0)`; `(0,0,0)` has length 0 and is divided by zero. -/
theorem normalizeVector_unguarded_witness :
    Rat.sqrt ((3 : ℚ) * 3 + 4 * 4 + 0 * 0) ≠ 0 ∧
    normalizeVector Rat.sqrt (⟨3, 4, 0⟩ : Vector ℚ) = some ⟨3 / 5, 4 / 5, 0⟩ ∧
    Rat.sqrt ((0 : ℚ) * 0 + 0 * 0 + 0 * 0) = 0 ∧
    normalizeVector Rat.sqrt (⟨0, 0, 0⟩ : Vector ℚ) = none := by
  have h5 : Rat.sqrt ((3 : ℚ) * 3 + 4 * 4 + 0 * 0) = 5 := by
    rw [show (3 : ℚ) * 3 + 4 * 4 + 0 * 0 = 5 * 5 by norm_num, Rat.sqrt_eq]
    norm_num
  have h0 : Rat.sqrt ((0 : ℚ) * 0 + 0 * 0 + 0 * 0) = 0 := by
    rw [show (0 : ℚ) * 0 + 0 * 0 + 0 * 0 = 0 * 0 by norm_num, Rat.sqrt_eq]
    norm_num
  have h5ne : Rat.sqrt ((3 : ℚ) * 3 + 4 * 4 + 0 * 0) ≠ 0 := by rw [h5]; norm_num
  refine ⟨h5ne, ?_, h0, ?_⟩
  · have h := (normalizeVector_unguarded Rat.sqrt (⟨3, 4, 0⟩ : Vector ℚ)).1 h5ne
    rw [h]
    show some (⟨3 / Rat.sqrt ((3 : ℚ) * 3 + 4 * 4 + 0 * 0), 4 / Rat.sqrt ((3 : ℚ) * 3 + 4 * 4 + 0 * 0),
      0 / Rat.sqrt ((3 : ℚ) * 3 + 4 * 4 + 0 * 0)⟩ : Vector ℚ) = _
    rw [h5]
    norm_num
  · exact ((normalizeVector_unguarded Rat.sqrt (⟨0, 0, 0⟩ : Vector ℚ)).2 h0).2

/-- Counterexample to C11 as stated: the edges of a triangle with a zero edge have the
cross product `(0,0,0)`, its length is 0, and `normalizeVector` divides by it; no
vector comes back. -/
theorem normalizeVector_divides_by_zero :
    crossProduct (⟨0, 0, 0⟩ : Vector ℚ) ⟨1, 2, 3⟩ = ⟨0, 0, 0⟩ ∧
    Rat.sqrt ((0 : ℚ) * 0 + 0 * 0 + 0 * 0) = 0 ∧
    divide (0 : ℚ) (Rat.sqrt ((0 : ℚ) * 0 + 0 * 0 + 0 * 0)) = none ∧
    normalizeVector Rat.sqrt (crossProduct (⟨0, 0, 0⟩ : Vector ℚ) ⟨1, 2, 3⟩) = none := by
  have hc : crossProduct (⟨0, 0, 0⟩ : Vector ℚ) ⟨1, 2, 3⟩ = ⟨0, 0, 0⟩ := by
    norm_num [crossProduct]
  have h0 : Rat.sqrt ((0 : ℚ) * 0 + 0 * 0 + 0 * 0) = 0 := by
    rw [show (0 : ℚ) * 0 + 0 * 0 + 0 * 0 = 0 * 0 by norm_num, Rat.sqrt_eq]
    norm_num
  refine ⟨hc, h0, ?_, ?_⟩
  · rw [h0]
    simp [divide]
  · rw [hc]
    simp only [normalizeVector, divide, h0, if_pos]

/-! ## Claim on the accumulated rotation -/

/-- Two one-step rotations compose by the addition formulas of cosine and sine. -/
theorem rotate1_rotate1 (c s c2 s2 : F) (p : Point F) :
    rotate1 c s (rotate1 c2 s2 p) = rotate1 (c2 * c - s2 * s) (s2 * c + c2 * s) p := by
  unfold rotate1
  ext
  · simp only; ring
  · rfl
  · simp only; ring

/-- Over the reals, with the cosine and the sine of an angle `step`, the base polyline
of ring `j` is the curve rotated by `j * step`. -/
theorem ringBase_eq_rotation (step : ℝ) (curve : Int → Point ℝ) (j : Nat) (i : Int) :
    ringBase (Real.cos step) (Real.sin step) curve j i
      = rotate1 (Real.cos (j * step)) (Real.sin (j * step)) (curve i) := by
  induction j with
  | zero =>
    simp only [ringBase, Nat.cast_zero, zero_mul, Real.cos_zero, Real.sin_zero]
    unfold rotate1
    ext <;> simp
  | succ j ih =>
    simp only [ringBase]
    rw [ih, rotate1_rotate1]
    have hang : ((j + 1 : Nat) : ℝ) * step = (j : ℝ) * step + step := by push_cast; ring
    rw [hang, Real.cos_add, Real.sin_add]

/-- C13: in exact real arithmetic, with `cos(step)` and `sin(step)` for the two
constants of the sweep (in the code `step = theta_incr * M_PI / 180`), the accumulated
sweep equals the direct rotation of the original curve: for every curve of `N ≥ 2`
samples, every ring `0 ≤ j < 45` and every `i` in `0..N-2`, the base vertices of quad
`(j,i)` are `rotate(sample_i, j*step)` and `rotate(sample_{i+1}, j*step)` and its
rotated vertices are `rotate(sample_i, (j+1)*step)` and `rotate(sample_{i+1}, (j+1)*step)`,
where `rotate((x,y,z), a) = (x*cos a + z*sin a, y, -x*sin a + z*cos a)` is
`rotate1 (cos a) (sin a)`; the base vertices of ring 0 are the samples themselves. -/
theorem calculateBsplineSurface_direct_rotation (step : ℝ) (st : State ℝ)
    (hN : 2 ≤ st.num_bspline_pts) :
    (∀ (j : Nat) (i : Int), j < 45 → 0 ≤ i → i ≤ st.num_bspline_pts - 2 →
      (calculateBsplineSurface (Real.cos step) (Real.sin step) st).bspline_surface j i =
        ⟨rotate1 (Real.cos (j * step)) (Real.sin (j * step)) (st.bspline i),
         rotate1 (Real.cos (j * step)) (Real.sin (j * step)) (st.bspline (i + 1)),
         rotate1 (Real.cos ((j + 1) * step)) (Real.sin ((j + 1) * step)) (st.bspline (i + 1)),
         rotate1 (Real.cos ((j + 1) * step)) (Real.sin ((j + 1) * step)) (st.bspline (i + 1)),
         rotate1 (Real.cos ((j + 1) * step)) (Real.sin ((j + 1) * step)) (st.bspline i),
         rotate1 (Real.cos (j * step)) (Real.sin (j * step)) (st.bspline i)⟩) ∧
    (∀ i : Int, 0 ≤ i → i ≤ st.num_bspline_pts - 2 →
      ((calculateBsplineSurface (Real.cos step) (Real.sin step) st).bspline_surface 0 i).v0
          = st.bspline i ∧
      ((calculateBsplineSurface (Real.cos step) (Real.sin step) st).bspline_surface 0 i).v1
          = st.bspline (i + 1)) ∧
    (∀ (a : ℝ) (p : Point ℝ), rotate1 (Real.cos a) (Real.sin a) p
      = ⟨p.x * Real.cos a + p.z * Real.sin a, p.y, -p.x * Real.sin a + p.z * Real.cos a⟩) := by
  have hsucc : ∀ (j : Nat) (k : Int),
      rotate1 (Real.cos step) (Real.sin step)
          (ringBase (Real.cos step) (Real.sin step) st.bspline j k)
        = rotate1 (Real.cos ((j + 1) * step)) (Real.sin ((j + 1) * step)) (st.bspline k) := by
    intro j k
    have h := ringBase_eq_rotation step st.bspline (j + 1) k
    simp only [ringBase, Nat.cast_add, Nat.cast_one] at h
    exact h
  refine ⟨?_, ?_, fun _ _ => rfl⟩
  · intro j i hj h0 h1
    rw [calculateBsplineSurface_cell (Real.cos step) (Real.sin step) st hN j i hj h0 (by omega)]
    unfold quadOf
    rw [hsucc j i, hsucc j (i + 1), ringBase_eq_rotation, ringBase_eq_rotation]
  · intro i h0 h1
    have h := calculateBsplineSurface_cell (Real.cos step) (Real.sin step) st hN 0 i
      (by decide) h0 (by omega)
    rw [Nat.cast_zero] at h
    rw [h]
    exact ⟨rfl, rfl⟩

/-- Witness of C13 on a polyline of two points with the step of the code, 8 degrees:
the cell of ring 1 between the two samples. -/
theorem calculateBsplineSurface_direct_rotation_witness :
    (2 : Int) ≤ (twoSamples ℝ).num_bspline_pts ∧
    ((calculateBsplineSurface (Real.cos ((theta_incr : ℝ) * Real.pi / 180))
        (Real.sin ((theta_incr : ℝ) * Real.pi / 180)) (twoSamples ℝ)).bspline_surface
          ((1 : Nat) : Int) 0).v0
      = rotate1 (Real.cos (((1 : Nat) : ℝ) * ((theta_incr : ℝ) * Real.pi / 180)))
          (Real.sin (((1 : Nat) : ℝ) * ((theta_incr : ℝ) * Real.pi / 180))) ⟨1, 0, 0⟩ :=
  ⟨le_refl 2,
   congrArg Quad.v0
     ((calculateBsplineSurface_direct_rotation ((theta_incr : ℝ) * Real.pi / 180) (twoSamples ℝ)
       (le_refl 2)).1 1 0 (by decide) (le_refl 0) (by decide))⟩

end SurfaceOfRevolutions
